import Mathlib

/-!
Verification development for the `csv2html` report pipeline.

The Python program (`src/csv2html.py`) is shallowly embedded: pandas
`DataFrame`s become ordered lists of labelled columns of `Cell`s, the
free-text accuracy regexes become explicit scanners over `List Char`,
and every pipeline stage of `normalize_and_process` is a pure function.
All definitions are executable; theorems at the end of the file settle
the specification claims.
-/

namespace Csv2Html

/-! ## Python string primitives -/

/-- Whitespace as recognised by Python `str.strip()` / `str.split()` / `\s`
(ASCII range: space, tab, newline, vertical tab, form feed, carriage return). -/
def isSpacePy (c : Char) : Bool :=
  c.toNat == 32 || c.toNat == 9 || c.toNat == 10 || c.toNat == 11 ||
  c.toNat == 13 || c.toNat == 12

/-- Word character for the `\b` boundary of Python regexes (`[A-Za-z0-9_]`). -/
def isWordCharPy (c : Char) : Bool :=
  c.isAlphanum || c == '_'

/-- Leading- and trailing-whitespace removal, i.e. Python `str.strip()`. -/
def pyStripL (l : List Char) : List Char :=
  ((l.dropWhile isSpacePy).reverse.dropWhile isSpacePy).reverse

/-- String-level `str.strip()`. -/
def pyStrip (s : String) : String :=
  ⟨pyStripL s.data⟩

/-- Accumulator pass of `str.split()`: returns the word currently being
built at the front together with the completed words behind it. -/
def wordsCore : List Char → List Char × List (List Char)
  | [] => ([], [])
  | c :: cs =>
    let p := wordsCore cs
    if isSpacePy c then ([], if p.1.isEmpty then p.2 else p.1 :: p.2)
    else (c :: p.1, p.2)

/-- Python `str.split()` with no argument: maximal runs of non-whitespace. -/
def words (l : List Char) : List (List Char) :=
  let p := wordsCore l
  if p.1.isEmpty then p.2 else p.1 :: p.2

/-- Python `" ".join(...)` on a list of character lists. -/
def joinWords : List (List Char) → List Char
  | [] => []
  | [w] => w
  | w :: ws => w ++ ' ' :: joinWords ws

/-- ASCII lowering of every character, i.e. Python `str.lower()` on the
basic-latin inputs the tool processes (`Char.toLower` is exactly the
`A`–`Z` shift). -/
def lowerL (l : List Char) : List Char :=
  l.map Char.toLower

/-- String-level `str.lower()`. -/
def pyLower (s : String) : String :=
  ⟨lowerL s.data⟩

/-- Body of `_normalize_key` on text input:
`" ".join(s.strip().split())` followed by `.lower()`. -/
def normalizeKeyStr (s : String) : String :=
  ⟨lowerL (joinWords (words (pyStripL s.data)))⟩

/-- Prefix test on character lists (`pat` is the prefix candidate). -/
def isPrefixL : List Char → List Char → Bool
  | [], _ => true
  | _, [] => false
  | p :: ps, c :: cs => p == c && isPrefixL ps cs

/-- Python `s.startswith(pre)`. -/
def pyStartsWith (s pre : String) : Bool :=
  isPrefixL pre.data s.data

/-- Substring occurrence on character lists (`pat` occurs inside `l`). -/
def isInfixL (pat : List Char) : List Char → Bool
  | [] => isPrefixL pat []
  | c :: cs => isPrefixL pat (c :: cs) || isInfixL pat cs

/-- Python `sub in s`. -/
def pyContains (s sub : String) : Bool :=
  isInfixL sub.data s.data

/-- Python `s.endswith(suf)`. -/
def pyEndsWith (s suf : String) : Bool :=
  isPrefixL suf.data.reverse s.data.reverse

/-! ## Cells

A pandas cell as produced by `read_csv` and the pipeline: missing (`NaN`),
a string, or a float (modelled by `Rat`). -/

inductive Cell where
  | na : Cell
  | str (s : String) : Cell
  | num (q : Rat) : Cell
deriving DecidableEq, Repr

/-- Decimal digits of a natural number (auxiliary, fuel-driven). -/
def natStrAux : Nat → Nat → List Char → List Char
  | 0, _, acc => acc
  | fuel + 1, n, acc =>
    let d := Char.ofNat (48 + n % 10)
    if n / 10 == 0 then d :: acc else natStrAux fuel (n / 10) (d :: acc)

/-- Decimal rendering of a natural number. -/
def natStr (n : Nat) : String :=
  ⟨natStrAux (n + 1) n []⟩

/-- Smallest `k ≤ 20` with `den ∣ 10^k`, if any: used to render rationals
that are exact decimals the way Python renders the corresponding floats. -/
def decExponent (den : Nat) : Option Nat :=
  (List.range 21).find? (fun k => 10 ^ k % den == 0)

/-- Rendering of a float cell by Python `str` (models `repr` of the
non-negative-power-of-ten decimals the data contains; the exact text of
other rationals is immaterial to every claim, only its non-emptiness). -/
def ratRepr (q : Rat) : String :=
  let sign := if q < 0 then "-" else ""
  let n := q.num.natAbs
  match decExponent q.den with
  | some 0 => sign ++ natStr n ++ ".0"
  | some k =>
    let scaled := n * (10 ^ k / q.den)
    let ip := scaled / 10 ^ k
    let fp := scaled % 10 ^ k
    let fpText := natStr fp
    let pad := String.mk (List.replicate (k - fpText.length) '0')
    sign ++ natStr ip ++ "." ++ pad ++ fpText
  | none => sign ++ natStr n ++ " " ++ natStr q.den

/-- Python `str(cell)`: `str(float('nan'))` is `"nan"`. -/
def cellToStr : Cell → String
  | .na => "nan"
  | .str s => s
  | .num q => ratRepr q

/-- Key Normalizer `_normalize_key`: non-text input yields the empty
string, text input is stripped, whitespace-collapsed and lowercased. -/
def _normalize_key : Cell → String
  | .str s => normalizeKeyStr s
  | _ => ""

/-- True when the cell is missing (`NaN`). -/
def isNaCell : Cell → Bool
  | .na => true
  | _ => false

/-! ## Regex scanners

The accuracy-parsing regular expressions of the source are modelled as
explicit scanners over `List Char`.  Each `...Try` function attempts a
match at the current position (given the previous character for `\b`
word boundaries) and a driver retries at every position, exactly like
`re.search` / `re.findall`. -/

/-- Boundary test for `\b` immediately before a word character. -/
def boundaryBefore : Option Char → Bool
  | none => true
  | some c => !isWordCharPy c

/-- Boundary test for `\b` immediately after a word character. -/
def boundaryAfter : List Char → Bool
  | [] => true
  | c :: _ => !isWordCharPy c

/-- Case-insensitive literal match: `pat` is given lowercase; returns the
rest of the input after the pattern. -/
def matchCI : List Char → List Char → Option (List Char)
  | [], l => some l
  | _, [] => none
  | p :: ps, c :: cs => if c.toLower == p then matchCI ps cs else none

/-- Number literal `[-+]?\d+(?:\.\d+)?`: returns matched text and rest. -/
def parseNumL (l : List Char) : Option (List Char × List Char) :=
  let signAndRest : List Char × List Char :=
    match l with
    | c :: cs => if c == '+' || c == '-' then ([c], cs) else ([], l)
    | [] => ([], [])
  let sign := signAndRest.1
  let l1 := signAndRest.2
  let ds := l1.takeWhile Char.isDigit
  let l2 := l1.dropWhile Char.isDigit
  if ds.isEmpty then none
  else
    match l2 with
    | '.' :: l3 =>
      let fs := l3.takeWhile Char.isDigit
      let l4 := l3.dropWhile Char.isDigit
      if fs.isEmpty then some (sign ++ ds, l2)
      else some (sign ++ ds ++ '.' :: fs, l4)
    | _ => some (sign ++ ds, l2)

/-- Separator-then-number `\s*[:=]?\s*([-+]?\d+(?:\.\d+)?)`. -/
def sepNumL (l : List Char) : Option (List Char × List Char) :=
  let l1 := l.dropWhile isSpacePy
  let l2 :=
    match l1 with
    | c :: cs => if c == ':' || c == '=' then cs else l1
    | [] => l1
  parseNumL (l2.dropWhile isSpacePy)

/-- Skip `[^0-9\-+]*`. -/
def skipToNum (l : List Char) : List Char :=
  l.dropWhile (fun c => !(c.isDigit || c == '+' || c == '-'))

/-- Driver for `re.search`: try the matcher at every position. -/
def scanFirst (tryAt : Option Char → List Char → Option α) :
    Option Char → List Char → Option α
  | prev, [] => tryAt prev []
  | prev, c :: cs =>
    match tryAt prev (c :: cs) with
    | some a => some a
    | none => scanFirst tryAt (some c) cs

/-- Driver for `re.findall` (fuel-driven; every pattern used consumes at
least one character per match, so `length + 1` fuel is enough). -/
def scanAllAux (tryAt : Option Char → List Char → Option (α × Option Char × List Char)) :
    Nat → Option Char → List Char → List α
  | 0, _, _ => []
  | _ + 1, _, [] => []
  | fuel + 1, prev, c :: cs =>
    match tryAt prev (c :: cs) with
    | some (a, p, rest) => a :: scanAllAux tryAt fuel p rest
    | none => scanAllAux tryAt fuel (some c) cs

/-- Run a `findall` scan over a whole character list. -/
def scanAll (tryAt : Option Char → List Char → Option (α × Option Char × List Char))
    (l : List Char) : List α :=
  scanAllAux tryAt (l.length + 1) none l

/-- Matcher for `_TOP1_RE`: `\bTop-?1\b[^0-9\-+]*([-+]?\d+(?:\.\d+)?)`. -/
def top1Try (prev : Option Char) (l : List Char) : Option String :=
  if !boundaryBefore prev then none
  else
    match matchCI "top".data l with
    | none => none
    | some r1 =>
      let r2 := match r1 with
        | '-' :: rest => rest
        | _ => r1
      match r2 with
      | '1' :: r3 =>
        if !boundaryAfter r3 then none
        else (parseNumL (skipToNum r3)).map (fun p => ⟨p.1⟩)
      | _ => none

/-- Negative lookahead of `_MAP_MAIN`: `\s*@?\s*0?\.?5|50`. -/
def mapLookahead (l : List Char) : Bool :=
  let r1 := l.dropWhile isSpacePy
  let r2 := match r1 with
    | '@' :: rest => rest
    | _ => r1
  let r3 := r2.dropWhile isSpacePy
  let r4 := match r3 with
    | '0' :: rest => rest
    | _ => r3
  let r5 := match r4 with
    | '.' :: rest => rest
    | _ => r4
  (match r5 with
   | '5' :: _ => true
   | _ => false) ||
  (match l with
   | '5' :: '0' :: _ => true
   | _ => false)

/-- Matcher for `_MAP_MAIN`:
`\bmAP\b(?!\s*@?\s*0?\.?5|50)\s*[:=]?\s*([-+]?\d+(?:\.\d+)?)`. -/
def mapMainTry (prev : Option Char) (l : List Char) : Option String :=
  if !boundaryBefore prev then none
  else
    match matchCI "map".data l with
    | none => none
    | some r1 =>
      if !boundaryAfter r1 then none
      else if mapLookahead r1 then none
      else (sepNumL r1).map (fun p => ⟨p.1⟩)

/-- Matcher for `_MAP_050`:
`\bmAP(?:@?\s*0?\.?5|50)\b\s*[:=]?\s*([-+]?\d+(?:\.\d+)?)`. -/
def map050Try (prev : Option Char) (l : List Char) : Option String :=
  if !boundaryBefore prev then none
  else
    match matchCI "map".data l with
    | none => none
    | some r1 =>
      let viaB : Option String :=
        match r1 with
        | '5' :: '0' :: rb =>
          if boundaryAfter rb then (sepNumL rb).map (fun p => ⟨p.1⟩) else none
        | _ => none
      let r2 := match r1 with
        | '@' :: rest => rest
        | _ => r1
      let r3 := r2.dropWhile isSpacePy
      let r4 := match r3 with
        | '0' :: rest => rest
        | _ => r3
      let r5 := match r4 with
        | '.' :: rest => rest
        | _ => r4
      match r5 with
      | '5' :: ra =>
        if boundaryAfter ra then (sepNumL ra).map (fun p => ⟨p.1⟩) else viaB
      | _ => viaB

/-- Matcher for `_FIRST_NUM`: the first bare number anywhere. -/
def firstNumTry (_ : Option Char) (l : List Char) : Option String :=
  (parseNumL l).map (fun p => ⟨p.1⟩)

/-- Single representative number of `extract_primary_accuracy`, priority
`Top1` > plain `mAP` > `mAP@0.5`/`mAP50` > first bare number. -/
def extract_primary_accuracy (value : String) : String :=
  let s := (pyStrip value).data
  match scanFirst top1Try none s with
  | some t => t
  | none =>
    match scanFirst mapMainTry none s with
    | some t => t
    | none =>
      match scanFirst map050Try none s with
      | some t => t
      | none =>
        match scanFirst firstNumTry none s with
        | some t => t
        | none => ""

/-- One labelled alternative of `_AP_PAIR_RE` after its leading `\b`. -/
def apLabelTry (pat : List Char) (canon : String) (l : List Char) :
    Option ((String × String) × Option Char × List Char) :=
  match matchCI pat l with
  | none => none
  | some r1 =>
    if !boundaryAfter r1 then none
    else
      match sepNumL r1 with
      | some (txt, rest) => some ((canon, ⟨txt⟩), txt.getLast?, rest)
      | none => none

/-- Matcher for `_AP_PAIR_RE`:
`\b(Easy|Medium|Hard)\b\s*[:=]?\s*([-+]?\d+(?:\.\d+)?)`. -/
def apPairTry (prev : Option Char) (l : List Char) :
    Option ((String × String) × Option Char × List Char) :=
  if !boundaryBefore prev then none
  else
    match apLabelTry "easy".data "Easy" l with
    | some r => some r
    | none =>
      match apLabelTry "medium".data "Medium" l with
      | some r => some r
      | none => apLabelTry "hard".data "Hard" l

/-- Matcher for `_AP_FUNC_RE`:
`AP\((Easy|Medium|Hard)\)\s*[:=]?\s*([-+]?\d+(?:\.\d+)?)`. -/
def apFuncTry (_ : Option Char) (l : List Char) :
    Option ((String × String) × Option Char × List Char) :=
  match matchCI "ap(".data l with
  | none => none
  | some r1 =>
    let lab : Option (String × List Char) :=
      match matchCI "easy".data r1 with
      | some r => some ("Easy", r)
      | none =>
        match matchCI "medium".data r1 with
        | some r => some ("Medium", r)
        | none => (matchCI "hard".data r1).map (fun r => ("Hard", r))
    match lab with
    | none => none
    | some (canon, r2) =>
      match r2 with
      | ')' :: r3 =>
        match sepNumL r3 with
        | some (txt, rest) => some ((canon, ⟨txt⟩), txt.getLast?, rest)
        | none => none
      | _ => none

/-- Matcher for `_AP_PREAMBLE_RE`: `\b(?:Val\s*)?AP\b`. -/
def apPreambleTry (prev : Option Char) (l : List Char) : Option Unit :=
  if !boundaryBefore prev then none
  else
    let tryAP (r : List Char) : Option Unit :=
      match matchCI "ap".data r with
      | some rest => if boundaryAfter rest then some () else none
      | none => none
    match matchCI "val".data l with
    | some r1 =>
      match tryAP (r1.dropWhile isSpacePy) with
      | some u => some u
      | none => tryAP l
    | none => tryAP l

/-- Matcher for `_NUM_RE` inside `findall`. -/
def numTry (_ : Option Char) (l : List Char) :
    Option (String × Option Char × List Char) :=
  (parseNumL l).map (fun p => (⟨p.1⟩, p.1.getLast?, p.2))

/-- Easy/Medium/Hard extraction `extract_ap_triple_joined`. -/
def extract_ap_triple_joined (raw : String) : String :=
  let s := (pyStrip raw).data
  if (scanFirst apPreambleTry none s).isNone then ""
  else
    let pairsList := scanAll apPairTry s ++ scanAll apFuncTry s
    let get (lbl : String) : Option String :=
      ((pairsList.filter (fun p => p.1 == lbl)).getLast?).map Prod.snd
    let ordered := [get "Easy", get "Medium", get "Hard"]
    if ordered.any Option.isSome then
      String.intercalate " / " (ordered.map (fun o => o.getD ""))
    else
      let nums := scanAll numTry s
      if nums.length ≥ 3 then String.intercalate " / " (nums.take 3)
      else ""

/-- Matcher shared by `_PSNR_RE` and `_SSIM_RE`:
`\b(?:Avg\s*)?<label>\b[^0-9\-+]*([-+]?\d+(?:\.\d+)?)`. -/
def labelNumTry (pat : List Char) (prev : Option Char) (l : List Char) :
    Option String :=
  if !boundaryBefore prev then none
  else
    let finish (r : List Char) : Option String :=
      if boundaryAfter r then (parseNumL (skipToNum r)).map (fun p => ⟨p.1⟩)
      else none
    let direct : Option String :=
      match matchCI pat l with
      | some r => finish r
      | none => none
    match matchCI "avg".data l with
    | some r1 =>
      match matchCI pat (r1.dropWhile isSpacePy) with
      | some r2 => finish r2
      | none => direct
    | none => direct

/-- PSNR/SSIM extraction `extract_psnr_ssim_joined`. -/
def extract_psnr_ssim_joined (raw : String) : String :=
  let s := (pyStrip raw).data
  let psnr := scanFirst (labelNumTry "psnr".data) none s
  let ssim := scanFirst (labelNumTry "ssim".data) none s
  if psnr.isSome || ssim.isSome then
    pyStrip (psnr.getD "" ++ " / " ++ ssim.getD "")
  else
    match scanAll numTry s with
    | a :: b :: _ => a ++ " / " ++ b
    | _ => ""

/-! ## Metric classification

The Python originals accept arbitrary values and return `""` for
non-text; the pipeline always calls them on the result of `str(...)`,
so the embeddings take `String`. -/

/-- Coarse family classifier `get_metric_type`. -/
def get_metric_type (value : String) : String :=
  let s := pyStrip value
  if pyStartsWith s "Top1" then "Top1"
  else if pyStartsWith s "mAP" then
    (if pyContains s "50" || pyContains s "0.5" then "mAP50" else "mAP")
  else if pyStartsWith s "mIoU" then "mIoU"
  else if pyStartsWith s "Avg PSNR" || pyStartsWith s "PSNR" || pyContains s "SSIM" then
    "PSNR/SSIM"
  else if pyStartsWith s "Val AP" || pyStartsWith s "AP(" || pyStartsWith s "AP " ||
      pyStartsWith s "AP" then
    "AP(Easy/Med/Hard)"
  else ""

/-- Sub-label classifier `get_metric_detail`. -/
def get_metric_detail (value : String) : String :=
  let s := pyStrip value
  if pyContains s "AP(Easy)" then "AP(Easy)"
  else if pyContains s "AP(Medium)" then "AP(Medium)"
  else if pyContains s "AP(Hard)" then "AP(Hard)"
  else if pyStartsWith s "Top1" then "Top1"
  else if pyStartsWith s "mAP@0.5" || pyContains s "mAP50" then "mAP@0.5"
  else if pyStartsWith s "mAP" then "mAP"
  else if pyStartsWith s "Avg PSNR" || pyStartsWith s "PSNR" || pyContains s "SSIM" then
    "PSNR/SSIM"
  else if pyStartsWith s "Val AP" || pyStartsWith s "AP(" || pyStartsWith s "AP " ||
      pyStartsWith s "AP" then
    "AP"
  else ""

/-- Per-row body of `_metric_accuracy_parsor`: from the stringified raw
and device accuracy texts, the `(Metric, Raw Accuracy, NPU Accuracy)`
triple written back into the row. -/
def parseRow (raw_str npu_str : String) : String × String × String :=
  let detail := get_metric_detail raw_str
  let major := get_metric_type raw_str
  let new_metric :=
    if detail == "AP(Easy)" || detail == "AP(Medium)" || detail == "AP(Hard)" then detail
    else major
  if new_metric == "AP(Easy/Med/Hard)" then
    let tripleRaw := extract_ap_triple_joined raw_str
    let tripleNpu := extract_ap_triple_joined npu_str
    (new_metric,
      if tripleRaw != "" then tripleRaw else extract_primary_accuracy raw_str,
      if tripleNpu != "" then tripleNpu else extract_primary_accuracy npu_str)
  else if new_metric == "PSNR/SSIM" then
    let pair := extract_psnr_ssim_joined raw_str
    (new_metric,
      if pair != "" then pair else extract_primary_accuracy raw_str,
      if pair != "" then pair else extract_primary_accuracy npu_str)
  else
    (new_metric, extract_primary_accuracy raw_str, extract_primary_accuracy npu_str)

/-! ## DataFrame model

A pandas `DataFrame` is an ordered list of labelled columns; duplicate
labels are possible (pandas allows them and the source relies on the
possibility), and labels keep their positions. -/

abbrev DF := List (String × List Cell)

/-- Column labels in order. -/
def labels (df : DF) : List String :=
  df.map Prod.fst

/-- Number of rows (length of the first column; a frame with no columns
has no rows). -/
def nrows : DF → Nat
  | [] => 0
  | c :: _ => c.2.length

/-- Cells of the first column carrying the label, when present
(`df[label]` under unique labels). -/
def getCol? (df : DF) (l : String) : Option (List Cell) :=
  (df.find? (fun c => c.1 == l)).map Prod.snd

/-- Membership test `label in df.columns`. -/
def hasCol (df : DF) (l : String) : Bool :=
  df.any (fun c => c.1 == l)

/-- Assignment `df[label] = cells`: replaces the cells of every column
carrying the label, or appends a new column at the end. -/
def setCol (df : DF) (l : String) (cells : List Cell) : DF :=
  if hasCol df l then df.map (fun c => if c.1 == l then (l, cells) else c)
  else df ++ [(l, cells)]

/-- Per-cell map over every column carrying the label. -/
def mapCol (df : DF) (l : String) (f : Cell → Cell) : DF :=
  df.map (fun c => if c.1 == l then (c.1, c.2.map f) else c)

/-! ## Schema constants of the source -/

/-- Alias table `COLUMN_ALIAS_MAP`. -/
def COLUMN_ALIAS_MAP : List (String × String) :=
  [("Raw Accu", "Raw Accuracy"),
   ("Raw Accuracy(20250604)", "Raw Accuracy"),
   ("NPU Accracy", "NPU Accuracy"),
   ("3npus_fps", "FPS"),
   ("3npus_FPS/W", "FPS/Watt"),
   ("reference", "Source"),
   ("Reference", "Source"),
   ("dxnn", "Compiled"),
   ("DXNN", "Compiled"),
   ("onnx", "onnx"),
   ("json", "json"),
   ("Model ID", "Name"),
   ("Dataset", "Dataset"),
   ("Input Resolution", "Input Resolution"),
   ("Operations", "Operations"),
   ("Parameters", "Parameters"),
   ("license", "License"),
   ("Raw Accuracy", "Raw Accuracy"),
   ("NPU Accuracy", "NPU Accuracy"),
   ("FPS", "FPS"),
   ("Task", "Task")]

/-- Canonical output schema `FINAL_COLUMNS`. -/
def FINAL_COLUMNS : List String :=
  ["Task", "Name", "Dataset", "Input Resolution", "Operations", "Parameters",
   "License", "Metric", "Raw Accuracy", "NPU Accuracy", "FPS", "FPS/Watt",
   "Source", "Compiled", "onnx", "json"]

/-- Link-rendered columns `LINK_COLUMNS` (their `LINK_TEXT_MAP` role text
equals the column name). -/
def LINK_COLUMNS : List String :=
  ["Source", "Compiled", "onnx", "json"]

/-! ## Link Renderer -/

/-- External-link SVG icon literal of the source (leading newline and
indentation as in the triple-quoted Python string). -/
def external_link_svg : String :=
  "\n    <svg xmlns=\"http://www.w3.org/2000/svg\" width=\"18\" height=\"18\" viewBox=\"0 0 24 24\" fill=\"none\" stroke=\"currentColor\" stroke-width=\"2\" stroke-linecap=\"round\" stroke-linejoin=\"round\">\n       <path d=\"M18 13v6a2 2 0 0 1-2 2H5a2 2 0 0 1-2-2V8a2 2 0 0 1 2-2h6\"></path>\n       <polyline points=\"15 3 21 3 21 9\"></polyline>\n       <line x1=\"10\" y1=\"14\" x2=\"21\" y2=\"3\"></line>\n    </svg>\n    "

/-- Download SVG icon literal of the source. -/
def download_svg : String :=
  "\n    <svg xmlns=\"http://www.w3.org/2000/svg\" width=\"18\" height=\"18\" viewBox=\"0 0 24 24\" fill=\"none\" stroke=\"currentColor\" stroke-width=\"2\" stroke-linecap=\"round\" stroke-linejoin=\"round\">\n        <path d=\"M21 15v4a2 2 0 0 1-2 2H5a2 2 0 0 1-2-2v-4\"></path>\n        <polyline points=\"7 10 12 15 17 10\"></polyline>\n        <line x1=\"12\" y1=\"15\" x2=\"12\" y2=\"3\"></line>\n    </svg>\n    "

/-- Link Renderer `create_html_link`: any cell that is a string and not
whitespace-only becomes an anchor (the source performs no scheme check);
everything else becomes the empty string. -/
def create_html_link (url : Cell) (text : String) : String :=
  match url with
  | .str u =>
    if pyStrip u == "" then ""
    else
      let icon_svg := if text == "Source" then external_link_svg else download_svg
      "<a href=\"" ++ u ++ "\" target=\"_blank\" rel=\"noopener noreferrer\" title=\"" ++
        text ++ "\">" ++ pyStrip icon_svg ++ "</a>"
  | _ => ""

/-! ## Pipeline stages of `normalize_and_process` -/

/-- Header cleanup (step 0): strip whitespace from every column name. -/
def stripHeaders (df : DF) : DF :=
  df.map (fun c => (pyStrip c.1, c.2))

/-- Ordinal prefix removal `^\d+\.\s*` followed by `strip` for Task
values. -/
def taskClean (s : String) : String :=
  let l := s.data
  let ds := l.takeWhile Char.isDigit
  let cleaned :=
    if ds.isEmpty then l
    else
      match l.drop ds.length with
      | '.' :: rest => rest.dropWhile isSpacePy
      | _ => l
  ⟨pyStripL cleaned⟩

/-- Task derivation (step 1): clean an existing Task column, otherwise
assign the literal fallback to every row. -/
def taskStep (df : DF) : DF :=
  if hasCol df "Task" then
    mapCol df "Task" (fun c => .str (taskClean (cellToStr c)))
  else df ++ [("Task", List.replicate (nrows df) (.str "Uncategorized Models"))]

/-- Lowered alias map `_lower_alias_map(COLUMN_ALIAS_MAP)`. -/
def lowerAliasMap : List (String × String) :=
  COLUMN_ALIAS_MAP.map (fun p => (pyLower (pyStrip p.1), p.2))

/-- Canonical name of a (already stripped) column label under the
case-insensitive alias renaming (step 2). -/
def aliasTarget (n : String) : String :=
  (lowerAliasMap.lookup (pyLower n)).getD n

/-- Column renaming (step 2). -/
def renameCols (df : DF) : DF :=
  df.map (fun c => (aliasTarget c.1, c.2))

/-- First non-missing cell of a list (`bfill` along one row). -/
def firstNonNa (cells : List Cell) : Cell :=
  ((cells.find? (fun c => !isNaCell c)).getD .na)

/-- Duplicate-label merge `dedupe_and_bfill_column`: when the label occurs
more than once, merge left-to-right by back-fill, drop all the occurrences
and append the merged column at the end (as `df.drop` + assignment do). -/
def dedupe_and_bfill_column (df : DF) (colname : String) : DF :=
  let cols := df.filter (fun c => c.1 == colname)
  if cols.length > 1 then
    let n := (cols.head?.map (fun c => c.2.length)).getD 0
    let merged := (List.range n).map (fun i =>
      firstNonNa (cols.map (fun c => c.2.getD i .na)))
    (df.filter (fun c => c.1 != colname)) ++ [(colname, merged)]
  else df

/-- Step 2-1 of the source: merge duplicate Name and License labels. -/
def dedupeStage (df : DF) : DF :=
  dedupe_and_bfill_column (dedupe_and_bfill_column df "Name") "License"

/-- Name fallback (step 3): when Name is absent or entirely missing, copy
a filename-like column, else a model-identifier column, else `"N/A"`. -/
def nameFillStage (df : DF) : DF :=
  let need :=
    if !hasCol df "Name" then true
    else ((getCol? df "Name").getD []).all isNaCell
  if need then
    if hasCol df "filename" then setCol df "Name" ((getCol? df "filename").getD [])
    else if hasCol df "Model ID" then setCol df "Name" ((getCol? df "Model ID").getD [])
    else setCol df "Name" (List.replicate (nrows df) (.str "N/A"))
  else df

/-- Stringified accuracy-text pair of every row (`str(row.get(...))` with
the empty-string default for an absent column). -/
def accuracyStrs (df : DF) (col : String) : List String :=
  match getCol? df col with
  | some cs => cs.map cellToStr
  | none => List.replicate (nrows df) ""

/-- Per-row parse results of the whole frame (the loop body reads the row
before writing it, so all triples are computed from the incoming frame). -/
def parsorCols (df : DF) : List (String × String × String) :=
  List.zipWith parseRow (accuracyStrs df "Raw Accuracy") (accuracyStrs df "NPU Accuracy")

/-- Metric Classifier & Accuracy Extractor `_metric_accuracy_parsor`
(step 4): rebuilds the frame row by row; `pd.DataFrame([])` of an empty
row list has no columns at all. -/
def _metric_accuracy_parsor (df : DF) : DF :=
  if nrows df == 0 then []
  else
    setCol
      (setCol (setCol df "Metric" ((parsorCols df).map (fun t => .str t.1)))
        "Raw Accuracy" ((parsorCols df).map (fun t => .str t.2.1)))
      "NPU Accuracy" ((parsorCols df).map (fun t => .str t.2.2))

/-- Required-column fill (step 5): every canonical column exists,
defaulting to the empty string. -/
def ensureFinalCols (df : DF) : DF :=
  FINAL_COLUMNS.foldl
    (fun d col =>
      if hasCol d col then d
      else d ++ [(col, List.replicate (nrows d) (.str ""))])
    df

/-- Link column rendering (step 6). -/
def linkStage (df : DF) : DF :=
  LINK_COLUMNS.foldl
    (fun d col => mapCol d col (fun c => .str (create_html_link c col)))
    df

/-- Rational value of a matched decimal literal (sign, integer digits,
optional fraction digits). -/
def ratOfDecimalTxt (txt : List Char) : Rat :=
  let signAndDigits : Bool × List Char :=
    match txt with
    | '-' :: rest => (true, rest)
    | '+' :: rest => (false, rest)
    | _ => (false, txt)
  let neg := signAndDigits.1
  let body := signAndDigits.2
  let ip := body.takeWhile Char.isDigit
  let fp := (body.dropWhile Char.isDigit).drop 1
  let ipVal := ip.foldl (fun (a : Nat) c => a * 10 + (c.toNat - 48)) 0
  let fpVal := fp.foldl (fun (a : Nat) c => a * 10 + (c.toNat - 48)) 0
  let q : Rat := (ipVal : Rat) + (fpVal : Rat) / ((10 : Rat) ^ fp.length)
  if neg then -q else q

/-- Numeric coercion `pd.to_numeric(..., errors="coerce")` on one cell:
strings that parse as decimal literals become numbers, everything
unparseable becomes missing. -/
def to_numeric_cell (c : Cell) : Cell :=
  match c with
  | .na => .na
  | .num q => .num q
  | .str s =>
    match parseNumL (pyStrip s).data with
    | some (txt, rest) => if rest.isEmpty then .num (ratOfDecimalTxt txt) else .na
    | none => .na

/-- Interpose a separator character between chunks. -/
def joinWith (sep : Char) : List (List Char) → List Char
  | [] => []
  | [w] => w
  | w :: ws => w ++ sep :: joinWith sep ws

/-- Thousands grouping of an integer-digit string. -/
def commaGroup (ds : List Char) : List Char :=
  let grouped := (ds.reverse.toChunks 3).reverse.map List.reverse
  joinWith ',' grouped

/-- Fixed-point formatting `f"{x:,.Nf}"` (comma-grouped, `dec` decimal
places, rounding half away from zero; the exact rounding rule is
immaterial to every claim). -/
def fmtFixed (q : Rat) (dec : Nat) : String :=
  let neg := q < 0
  let a := if neg then -q else q
  let scaled : Nat := (Int.floor (a * (10 : Rat) ^ dec + 1/2)).toNat
  let ip := scaled / 10 ^ dec
  let fp := scaled % 10 ^ dec
  let ipText := ⟨commaGroup (natStr ip).data⟩
  let fpText := natStr fp
  let pad := String.mk (List.replicate (dec - fpText.length) '0')
  (if neg then "-" else "") ++ ipText ++
    (if dec == 0 then "" else "." ++ pad ++ fpText)

/-- Formatting of one numeric cell: missing renders empty. -/
def fmtCell (dec : Nat) (c : Cell) : Cell :=
  match c with
  | .num q => .str (fmtFixed q dec)
  | _ => .str ""

/-- Numeric formatting (step 7). -/
def numericStage (df : DF) : DF :=
  let d := ["Operations", "Parameters", "FPS", "FPS/Watt"].foldl
    (fun d col => mapCol d col to_numeric_cell) df
  let d := mapCol d "Operations" (fmtCell 2)
  let d := mapCol d "Parameters" (fmtCell 2)
  let d := mapCol d "FPS" (fmtCell 0)
  mapCol d "FPS/Watt" (fmtCell 2)

/-- Matching-key column creation (after step 7):
`df["_match_key_"] = df["Name"].astype(str).map(_normalize_key)`. -/
def matchKeyStage (df : DF) : DF :=
  let d := if hasCol df "Name" then df
    else setCol df "Name" (List.replicate (nrows df) (.str "N/A"))
  setCol d "_match_key_"
    (((getCol? d "Name").getD []).map (fun c => .str (normalizeKeyStr (cellToStr c))))

/-- License fallback: `fillna("Not Specified")` then the whitespace-only
replacement. -/
def licenseStage (df : DF) : DF :=
  if hasCol df "License" then
    let d := mapCol df "License" (fun c => if isNaCell c then .str "Not Specified" else c)
    mapCol d "License" (fun c => if pyStrip (cellToStr c) == "" then .str "Not Specified" else c)
  else df

/-- One row of the loaded enrichment table (`load_meta` output schema):
matching key plus the three fill fields. -/
structure MetaRow where
  key : String
  ir : Cell
  ops : Cell
  params : Cell
deriving DecidableEq, Repr

/-- Gap fill `_fill_if_empty`: keep the primary cell whenever its string
form is non-empty, otherwise take the merged enrichment cell. -/
def fillIfEmpty (df : DF) (base metaCol : String) : DF :=
  let d := if hasCol df base then df
    else df ++ [(base, List.replicate (nrows df) (.str ""))]
  let mcells := (getCol? d metaCol).getD []
  d.map (fun c =>
    if c.1 == base then
      (c.1, List.zipWith (fun b mv => if (cellToStr b).length > 0 then b else mv) c.2 mcells)
    else c)

/-- Left-outer enrichment merge on `_match_key_` followed by the three
gap fills and the `_meta` column cleanup. -/
def mergeStage (df : DF) (meta : Option (List MetaRow)) : DF :=
  match meta with
  | none => df
  | some m =>
    let keys := ((getCol? df "_match_key_").getD []).map cellToStr
    let look (f : MetaRow → Cell) : List Cell :=
      keys.map (fun k =>
        match m.find? (fun r => r.key == k) with
        | some r => f r
        | none => .na)
    let d := df ++
      [("Input Resolution_meta", look (fun r => r.ir)),
       ("Operations_meta", look (fun r => r.ops)),
       ("Parameters_meta", look (fun r => r.params))]
    let d := fillIfEmpty d "Input Resolution" "Input Resolution_meta"
    let d := fillIfEmpty d "Operations" "Operations_meta"
    let d := fillIfEmpty d "Parameters" "Parameters_meta"
    d.filter (fun c => !pyEndsWith c.1 "_meta")

/-- Final projection (step 8): `df[FINAL_COLUMNS]` takes, for each listed
label, every column carrying it, in list order. -/
def selectFinal (df : DF) : DF :=
  FINAL_COLUMNS.flatMap (fun l => df.filter (fun c => c.1 == l))

/-- Header preparation stages (steps 0 to 2). -/
def prepare (df : DF) : DF :=
  renameCols (taskStep (stripHeaders df))

/-- Normalization pipeline `normalize_and_process`; `meta` is the loaded
enrichment table when a metadata path was given. -/
def normalize_and_process (df : DF) (meta : Option (List MetaRow)) : DF :=
  selectFinal
    (mergeStage
      (licenseStage
        (matchKeyStage
          (numericStage
            (linkStage
              (ensureFinalCols
                (_metric_accuracy_parsor
                  (nameFillStage
                    (dedupeStage (prepare df)))))))))
      meta)

/-! ## Report Assembler

`dataframe_grouped_html` renders one heading plus one table per task;
its grouping skeleton (which tasks, in which order, with which rows) is
modelled structurally, the surrounding markup being fixed text. -/

/-- Order-preserving duplicate removal (`pd.Series.drop_duplicates`). -/
def dedupFirst (l : List String) : List String :=
  go l []
  where
    go : List String → List String → List String
    | [], _ => []
    | x :: xs, seen =>
      if seen.contains x then go xs seen else x :: go xs (x :: seen)

/-- Pandas comparison of a cell against a string (`df["Task"] == task`):
only an equal string cell matches. -/
def cellEqStr (c : Cell) (t : String) : Bool :=
  match c with
  | .str s => s == t
  | _ => false

/-- Row selection by boolean mask, column by column. -/
def filterRows (df : DF) (mask : List Bool) : DF :=
  df.map (fun c =>
    (c.1, ((mask.zip c.2).filter (fun p => p.1)).map Prod.snd))

/-- Grouping skeleton of `dataframe_grouped_html`: the `(task, rows)`
sections in first-appearance order of the stringified Task values,
sections with zero rows skipped (`to_html` markup abstracted). -/
def dataframe_grouped_sections (df : DF) : List (String × DF) :=
  let ts := ((getCol? df "Task").getD []).map cellToStr
  let task_order := if ts.isEmpty then ["Uncategorized Models"] else dedupFirst ts
  task_order.filterMap (fun task =>
    let mask := ((getCol? df "Task").getD []).map (fun c => cellEqStr c task)
    let sub := filterRows df mask
    if nrows sub == 0 then none else some (task, sub))

/-! ## Command surface and file handling

`main` / `generate_model_zoo_html` / the existence checks of `load_meta`,
with the file system abstracted to the list of existing paths and the
table processing itself abstracted to success. -/

/-- Optional command-line arguments of `main` (`None` means the argparse
default is used). -/
structure Args where
  csv : Option String
  out : Option String
  meta : Option String

/-- Path-handling skeleton of one run: `--csv` defaults to `sample.csv`,
`--meta` defaults to `meta.csv` and is always passed to
`generate_model_zoo_html`, which forwards it to `load_meta`; `load_meta`
raises when the path does not exist or has an unsupported extension. -/
def mainRun (fs : List String) (a : Args) : Except String Unit :=
  let csvPath := a.csv.getD "sample.csv"
  let metaPath := a.meta.getD "meta.csv"
  if !fs.contains csvPath then
    .error ("Input CSV not found: " ++ csvPath)
  else if !fs.contains metaPath then
    .error ("Enrichment file not found: " ++ metaPath)
  else if !(pyEndsWith (pyLower metaPath) ".csv" ||
      pyEndsWith (pyLower metaPath) ".parquet" || pyEndsWith (pyLower metaPath) ".pq") then
    .error "Unsupported enrichment format. Use CSV or Parquet."
  else .ok ()

/-! ## Well-formedness of model inputs

Theorems quantified over input frames assume the region in which the
embedding is exactly faithful to pandas: rectangular frames whose
post-renaming headers carry no duplicate labels and avoid the merge
bookkeeping names (duplicate labels other than Name/License drive pandas
itself into corner cases the source never handles). -/

/-- Rectangularity: every column has the common row count. -/
def Rect (df : DF) : Prop :=
  ∀ c ∈ df, c.2.length = nrows df

/-- Rectangularity against an explicit row count. -/
def RectN (df : DF) (n : Nat) : Prop :=
  ∀ c ∈ df, c.2.length = n

/-- Labels acceptable at the merge step: nothing that collides with the
`_meta` suffix bookkeeping. -/
def NoMeta (df : DF) : Prop :=
  ∀ l ∈ labels df, pyEndsWith l "_meta" = false

/-- Faithful input region for pipeline-level theorems. -/
def WellFormedInput (df : DF) : Prop :=
  (labels (prepare df)).Nodup ∧
  (∀ l ∈ labels (prepare df), pyEndsWith l "_meta" = false ∧ l ≠ "_match_key_") ∧
  Rect df

instance (d : DF) (n : Nat) : Decidable (RectN d n) := by
  unfold RectN
  infer_instance

instance (d : DF) : Decidable (NoMeta d) := by
  unfold NoMeta
  infer_instance

instance : DecidablePred WellFormedInput := fun df => by
  unfold WellFormedInput Rect
  infer_instance

/-- Rendered value of a cell in the emitted table (`to_html` uses
`na_rep=""`). -/
def renderCell : Cell → String
  | .na => ""
  | c => cellToStr c

/-- Membership of a canonical label in the reconciled source header:
"absent from the source" in the claims means absent here. -/
def sourceHasCol (df : DF) (l : String) : Bool :=
  hasCol (prepare df) l

/-!
# Theorems

Helper lemmas first, then one theorem per claim (with witnesses and
counterexamples as needed).
-/

/-! ### Key Normalizer lemmas -/

theorem toNat_ofNat_valid (n : Nat) (h : n < 55296) : (Char.ofNat n).toNat = n := by
  rw [Char.ofNat, dif_pos (Or.inl h)]
  rfl

theorem isSpacePy_iff (c : Char) :
    isSpacePy c = true ↔
      (c.toNat = 32 ∨ c.toNat = 9 ∨ c.toNat = 10 ∨ c.toNat = 11 ∨
       c.toNat = 13 ∨ c.toNat = 12) := by
  simp [isSpacePy, or_assoc]

theorem toLower_spec (c : Char) :
    c.toLower = if 65 ≤ c.toNat ∧ c.toNat ≤ 90 then Char.ofNat (c.toNat + 32) else c :=
  rfl

theorem isSpacePy_toLower (c : Char) : isSpacePy c.toLower = isSpacePy c := by
  by_cases h : 65 ≤ c.toNat ∧ c.toNat ≤ 90
  · have hval : (Char.ofNat (c.toNat + 32)).toNat = c.toNat + 32 :=
      toNat_ofNat_valid _ (by omega)
    rw [Bool.eq_iff_iff, isSpacePy_iff, isSpacePy_iff, toLower_spec, if_pos h, hval]
    omega
  · rw [toLower_spec, if_neg h]

theorem toLower_toLower (c : Char) : c.toLower.toLower = c.toLower := by
  by_cases h : 65 ≤ c.toNat ∧ c.toNat ≤ 90
  · have hval : (Char.ofNat (c.toNat + 32)).toNat = c.toNat + 32 :=
      toNat_ofNat_valid _ (by omega)
    rw [toLower_spec c, if_pos h, toLower_spec, hval, if_neg (by omega)]
  · rw [toLower_spec c, if_neg h, toLower_spec c, if_neg h]

theorem wordsCore_nil : wordsCore [] = ([], []) := rfl

theorem wordsCore_cons (c : Char) (cs : List Char) :
    wordsCore (c :: cs) =
      (if isSpacePy c then
        ([], if (wordsCore cs).1.isEmpty then (wordsCore cs).2
             else (wordsCore cs).1 :: (wordsCore cs).2)
       else (c :: (wordsCore cs).1, (wordsCore cs).2)) :=
  rfl

theorem words_def (l : List Char) :
    words l =
      (if (wordsCore l).1.isEmpty then (wordsCore l).2
       else (wordsCore l).1 :: (wordsCore l).2) :=
  rfl

theorem wordsCore_append_space (l : List Char) (c : Char) (h : isSpacePy c = true) :
    wordsCore (l ++ [c]) = wordsCore l := by
  induction l with
  | nil => simp [wordsCore_cons, wordsCore_nil, h]
  | cons a l ih =>
    rw [List.cons_append, wordsCore_cons, ih, wordsCore_cons]

theorem words_append_space (l : List Char) (c : Char) (h : isSpacePy c = true) :
    words (l ++ [c]) = words l := by
  rw [words_def, wordsCore_append_space l c h, words_def]

theorem words_cons_space (c : Char) (cs : List Char) (h : isSpacePy c = true) :
    words (c :: cs) = words cs := by
  rw [words_def, wordsCore_cons, if_pos h]
  simp only [List.isEmpty_nil, if_true]
  rw [words_def]

theorem words_dropWhile (l : List Char) :
    words (l.dropWhile isSpacePy) = words l := by
  induction l with
  | nil => rfl
  | cons c cs ih =>
    by_cases h : isSpacePy c = true
    · rw [List.dropWhile_cons_of_pos h, ih, words_cons_space c cs h]
    · rw [List.dropWhile_cons_of_neg h]

theorem words_reverse_dropWhile (r : List Char) :
    words ((r.dropWhile isSpacePy).reverse) = words r.reverse := by
  induction r with
  | nil => rfl
  | cons c cs ih =>
    by_cases h : isSpacePy c = true
    · rw [List.dropWhile_cons_of_pos h, ih]
      rw [List.reverse_cons, words_append_space _ c h]
    · rw [List.dropWhile_cons_of_neg h]

theorem words_pyStripL (l : List Char) : words (pyStripL l) = words l := by
  unfold pyStripL
  rw [words_reverse_dropWhile ((l.dropWhile isSpacePy).reverse), List.reverse_reverse,
    words_dropWhile]

/-- A word produced by `words`: nonempty and whitespace-free. -/
def goodWord (w : List Char) : Prop :=
  w ≠ [] ∧ ∀ c ∈ w, isSpacePy c = false

theorem wordsCore_good (l : List Char) :
    (∀ c ∈ (wordsCore l).1, isSpacePy c = false) ∧
      ∀ w ∈ (wordsCore l).2, goodWord w := by
  induction l with
  | nil => simp [wordsCore_nil]
  | cons c cs ih =>
    rw [wordsCore_cons]
    by_cases h : isSpacePy c = true
    · rw [if_pos h]
      refine ⟨by simp, ?_⟩
      by_cases he : (wordsCore cs).1.isEmpty
      · simpa [he] using ih.2
      · simp only [he, Bool.false_eq_true, if_neg]
        intro w hw
        rcases List.mem_cons.mp hw with hw | hw
        · subst hw
          exact ⟨by simpa using he, ih.1⟩
        · exact ih.2 w hw
    · rw [if_neg h]
      have h' : isSpacePy c = false := by simpa using h
      constructor
      · intro d hd
        rcases List.mem_cons.mp hd with hd | hd
        · subst hd; exact h'
        · exact ih.1 d hd
      · exact ih.2

theorem words_good (l : List Char) : ∀ w ∈ words l, goodWord w := by
  intro w hw
  rw [words_def] at hw
  by_cases he : (wordsCore l).1.isEmpty
  · rw [if_pos he] at hw
    exact (wordsCore_good l).2 w hw
  · rw [if_neg he] at hw
    rcases List.mem_cons.mp hw with hw | hw
    · subst hw
      exact ⟨by simpa using he, (wordsCore_good l).1⟩
    · exact (wordsCore_good l).2 w hw

theorem wordsCore_wordFree (w x : List Char) (hw : ∀ c ∈ w, isSpacePy c = false) :
    wordsCore (w ++ x) = (w ++ (wordsCore x).1, (wordsCore x).2) := by
  induction w with
  | nil => simp
  | cons c cs ih =>
    have hc : isSpacePy c = false := hw c (by simp)
    have ih' := ih (fun d hd => hw d (by simp [hd]))
    rw [List.cons_append, wordsCore_cons, ih', hc]
    simp

theorem wordsCore_cons_space (c : Char) (cs : List Char) (h : isSpacePy c = true) :
    wordsCore (c :: cs) = ([], words cs) := by
  rw [wordsCore_cons, if_pos h, words_def]

theorem isEmpty_false_of_ne_nil {w : List Char} (h : w ≠ []) : w.isEmpty = false := by
  cases w with
  | nil => exact absurd rfl h
  | cons a l => rfl

theorem words_joinWords (ws : List (List Char)) (h : ∀ w ∈ ws, goodWord w) :
    words (joinWords ws) = ws := by
  induction ws with
  | nil => rfl
  | cons w ws ih =>
    match ws, ih with
    | [], _ =>
      have hg := h w (by simp)
      show words (joinWords [w]) = [w]
      have hj : joinWords [w] = w := rfl
      rw [hj, words_def,
        show w = w ++ ([] : List Char) from (List.append_nil w).symm,
        wordsCore_wordFree _ _ hg.2, wordsCore_nil]
      simp [isEmpty_false_of_ne_nil hg.1]
    | w' :: ws', ih =>
      have hg := h w (by simp)
      have hrest : words (joinWords (w' :: ws')) = w' :: ws' :=
        ih (fun u hu => h u (by simp [hu]))
      show words (joinWords (w :: w' :: ws')) = w :: w' :: ws'
      have hj : joinWords (w :: w' :: ws') = w ++ ' ' :: joinWords (w' :: ws') := rfl
      rw [hj, words_def, wordsCore_wordFree _ _ hg.2,
        wordsCore_cons_space ' ' _ (by decide), hrest]
      simp [isEmpty_false_of_ne_nil hg.1]

theorem lowerL_joinWords (ws : List (List Char)) :
    lowerL (joinWords ws) = joinWords (ws.map lowerL) := by
  induction ws with
  | nil => rfl
  | cons w ws ih =>
    match ws, ih with
    | [], _ => rfl
    | w' :: ws', ih =>
      show lowerL (w ++ ' ' :: joinWords (w' :: ws')) = _
      unfold lowerL at *
      rw [List.map_append, List.map_cons, ih]
      rfl

theorem goodWord_lowerL (w : List Char) (h : goodWord w) : goodWord (lowerL w) := by
  refine ⟨by simpa [lowerL] using h.1, ?_⟩
  intro c hc
  rcases List.mem_map.mp hc with ⟨d, hd, rfl⟩
  rw [isSpacePy_toLower]
  exact h.2 d hd

theorem lowerL_lowerL (w : List Char) : lowerL (lowerL w) = lowerL w := by
  unfold lowerL
  rw [List.map_map]
  exact List.map_congr_left (fun c _ => toLower_toLower c)

theorem normalizeKeyStr_idem (s : String) :
    normalizeKeyStr (normalizeKeyStr s) = normalizeKeyStr s := by
  unfold normalizeKeyStr
  have hdata : (String.mk (lowerL (joinWords (words (pyStripL s.data))))).data =
      lowerL (joinWords (words (pyStripL s.data))) := rfl
  rw [hdata]
  set ws := words (pyStripL s.data) with hws
  have hgood : ∀ w ∈ ws, goodWord w := fun w hw => words_good _ w hw
  have hgoodl : ∀ w ∈ ws.map lowerL, goodWord w := by
    intro w hw
    rcases List.mem_map.mp hw with ⟨u, hu, rfl⟩
    exact goodWord_lowerL u (hgood u hu)
  rw [words_pyStripL, lowerL_joinWords, lowerL_joinWords ws,
    words_joinWords _ hgoodl, List.map_map]
  have : ws.map (lowerL ∘ lowerL) = ws.map lowerL :=
    List.map_congr_left (fun w _ => lowerL_lowerL w)
  rw [this]

/-! ### Classifier lemmas -/

theorem isPrefixL_iff_append (pat l : List Char) :
    isPrefixL pat l = true ↔ ∃ t, l = pat ++ t := by
  induction pat generalizing l with
  | nil => simp [isPrefixL]
  | cons p ps ih =>
    cases l with
    | nil => simp [isPrefixL]
    | cons c cs =>
      simp only [isPrefixL, Bool.and_eq_true, beq_iff_eq, ih, List.cons_append,
        List.cons.injEq]
      constructor
      · rintro ⟨rfl, t, rfl⟩
        exact ⟨t, rfl, rfl⟩
      · rintro ⟨t, rfl, rfl⟩
        exact ⟨rfl, t, rfl⟩

/-- Shape of a trimmed string that passes the AP prefix test of the
classifier: it starts with `V` (from `Val AP`) or with `AP`. -/
theorem ap_prefix_shape (s : String)
    (hap : (pyStartsWith s "Val AP" || pyStartsWith s "AP(" || pyStartsWith s "AP " ||
      pyStartsWith s "AP") = true) :
    (∃ r, s.data = 'V' :: r) ∨ (∃ r, s.data = 'A' :: 'P' :: r) := by
  rcases Bool.or_eq_true_iff.mp hap with h | h
  rotate_left
  · right
    rcases (isPrefixL_iff_append _ _).mp h with ⟨t, ht⟩
    exact ⟨t, by simpa using ht⟩
  rcases Bool.or_eq_true_iff.mp h with h | h
  rotate_left
  · right
    rcases (isPrefixL_iff_append _ _).mp h with ⟨t, ht⟩
    exact ⟨' ' :: t, by simpa using ht⟩
  rcases Bool.or_eq_true_iff.mp h with h | h
  · left
    rcases (isPrefixL_iff_append _ _).mp h with ⟨t, ht⟩
    exact ⟨'a' :: 'l' :: ' ' :: 'A' :: 'P' :: t, by simpa using ht⟩
  · right
    rcases (isPrefixL_iff_append _ _).mp h with ⟨t, ht⟩
    exact ⟨'(' :: t, by simpa using ht⟩

theorem get_metric_type_AP (s : String) (hstrip : pyStrip s = s)
    (hap : (pyStartsWith s "Val AP" || pyStartsWith s "AP(" || pyStartsWith s "AP " ||
      pyStartsWith s "AP") = true)
    (hss : pyContains s "SSIM" = false) :
    get_metric_type s = "AP(Easy/Med/Hard)" := by
  simp only [get_metric_type, hstrip]
  rcases ap_prefix_shape s hap with ⟨r, hd⟩ | ⟨r, hd⟩
  · rw [show pyStartsWith s "Top1" = false by rw [pyStartsWith, hd]; simp [isPrefixL],
      show pyStartsWith s "mAP" = false by rw [pyStartsWith, hd]; simp [isPrefixL],
      show pyStartsWith s "mIoU" = false by rw [pyStartsWith, hd]; simp [isPrefixL],
      show pyStartsWith s "Avg PSNR" = false by rw [pyStartsWith, hd]; simp [isPrefixL],
      show pyStartsWith s "PSNR" = false by rw [pyStartsWith, hd]; simp [isPrefixL],
      hss, hap]
    simp
  · rw [show pyStartsWith s "Top1" = false by rw [pyStartsWith, hd]; simp [isPrefixL],
      show pyStartsWith s "mAP" = false by rw [pyStartsWith, hd]; simp [isPrefixL],
      show pyStartsWith s "mIoU" = false by rw [pyStartsWith, hd]; simp [isPrefixL],
      show pyStartsWith s "Avg PSNR" = false by rw [pyStartsWith, hd]; simp [isPrefixL],
      show pyStartsWith s "PSNR" = false by rw [pyStartsWith, hd]; simp [isPrefixL],
      hss, hap]
    simp

theorem get_metric_detail_AP (s : String) (hstrip : pyStrip s = s)
    (hap : (pyStartsWith s "Val AP" || pyStartsWith s "AP(" || pyStartsWith s "AP " ||
      pyStartsWith s "AP") = true)
    (hss : pyContains s "SSIM" = false)
    (q1 : pyContains s "AP(Easy)" = false) (q2 : pyContains s "AP(Medium)" = false)
    (q3 : pyContains s "AP(Hard)" = false) :
    get_metric_detail s = "mAP@0.5" ∨ get_metric_detail s = "AP" := by
  simp only [get_metric_detail, hstrip, q1, q2, q3]
  have hshape := ap_prefix_shape s hap
  by_cases q4 : pyContains s "mAP50" = true
  · rcases hshape with ⟨r, hd⟩ | ⟨r, hd⟩
    · rw [show pyStartsWith s "Top1" = false by rw [pyStartsWith, hd]; simp [isPrefixL],
        show pyStartsWith s "mAP@0.5" = false by rw [pyStartsWith, hd]; simp [isPrefixL],
        q4]
      simp
    · rw [show pyStartsWith s "Top1" = false by rw [pyStartsWith, hd]; simp [isPrefixL],
        show pyStartsWith s "mAP@0.5" = false by rw [pyStartsWith, hd]; simp [isPrefixL],
        q4]
      simp
  · have q4' : pyContains s "mAP50" = false := by simpa using q4
    rcases hshape with ⟨r, hd⟩ | ⟨r, hd⟩
    · rw [show pyStartsWith s "Top1" = false by rw [pyStartsWith, hd]; simp [isPrefixL],
        show pyStartsWith s "mAP@0.5" = false by rw [pyStartsWith, hd]; simp [isPrefixL],
        show pyStartsWith s "mAP" = false by rw [pyStartsWith, hd]; simp [isPrefixL],
        show pyStartsWith s "Avg PSNR" = false by rw [pyStartsWith, hd]; simp [isPrefixL],
        show pyStartsWith s "PSNR" = false by rw [pyStartsWith, hd]; simp [isPrefixL],
        q4', hss, hap]
      simp
    · rw [show pyStartsWith s "Top1" = false by rw [pyStartsWith, hd]; simp [isPrefixL],
        show pyStartsWith s "mAP@0.5" = false by rw [pyStartsWith, hd]; simp [isPrefixL],
        show pyStartsWith s "mAP" = false by rw [pyStartsWith, hd]; simp [isPrefixL],
        show pyStartsWith s "Avg PSNR" = false by rw [pyStartsWith, hd]; simp [isPrefixL],
        show pyStartsWith s "PSNR" = false by rw [pyStartsWith, hd]; simp [isPrefixL],
        q4', hss, hap]
      simp

theorem get_metric_detail_sublabel (s : String) (hstrip : pyStrip s = s)
    (lbl : String) (hin : pyContains s ("AP(" ++ lbl ++ ")") = true)
    (hfirst : lbl = "Easy" ∨
      (lbl = "Medium" ∧ pyContains s "AP(Easy)" = false) ∨
      (lbl = "Hard" ∧ pyContains s "AP(Easy)" = false ∧ pyContains s "AP(Medium)" = false)) :
    get_metric_detail s = "AP(" ++ lbl ++ ")" := by
  rcases hfirst with rfl | ⟨rfl, h1⟩ | ⟨rfl, h1, h2⟩
  · simp only [get_metric_detail, hstrip]
    rw [show ("AP(" ++ "Easy" ++ ")" : String) = "AP(Easy)" from rfl] at hin
    rw [hin]
    simp
  · simp only [get_metric_detail, hstrip]
    rw [show ("AP(" ++ "Medium" ++ ")" : String) = "AP(Medium)" from rfl] at hin
    rw [hin, h1]
    simp
  · simp only [get_metric_detail, hstrip]
    rw [show ("AP(" ++ "Hard" ++ ")" : String) = "AP(Hard)" from rfl] at hin
    rw [hin, h1, h2]
    simp

/-- Metric written by the parsing stage for an AP-prefixed, SSIM-free raw
string: the first literally contained sub-label, else the family. -/
theorem parseRow_metric_AP (s npu : String) (hstrip : pyStrip s = s)
    (hap : (pyStartsWith s "Val AP" || pyStartsWith s "AP(" || pyStartsWith s "AP " ||
      pyStartsWith s "AP") = true)
    (hss : pyContains s "SSIM" = false) :
    (parseRow s npu).1 =
      (if pyContains s "AP(Easy)" then "AP(Easy)"
       else if pyContains s "AP(Medium)" then "AP(Medium)"
       else if pyContains s "AP(Hard)" then "AP(Hard)"
       else "AP(Easy/Med/Hard)") := by
  have hmaj := get_metric_type_AP s hstrip hap hss
  by_cases q1 : pyContains s "AP(Easy)" = true
  · have hdet := get_metric_detail_sublabel s hstrip "Easy" (by simpa using q1) (Or.inl rfl)
    simp only [parseRow, hdet, hmaj, q1]
    simp
  · have q1' : pyContains s "AP(Easy)" = false := by simpa using q1
    by_cases q2 : pyContains s "AP(Medium)" = true
    · have hdet := get_metric_detail_sublabel s hstrip "Medium" (by simpa using q2)
        (Or.inr (Or.inl ⟨rfl, q1'⟩))
      simp only [parseRow, hdet, hmaj, q1', q2]
      simp
    · have q2' : pyContains s "AP(Medium)" = false := by simpa using q2
      by_cases q3 : pyContains s "AP(Hard)" = true
      · have hdet := get_metric_detail_sublabel s hstrip "Hard" (by simpa using q3)
          (Or.inr (Or.inr ⟨rfl, q1', q2'⟩))
        simp only [parseRow, hdet, hmaj, q1', q2', q3]
        simp
      · have q3' : pyContains s "AP(Hard)" = false := by simpa using q3
        rcases get_metric_detail_AP s hstrip hap hss q1' q2' q3' with hdet | hdet
        · simp only [parseRow, hdet, hmaj, q1', q2', q3']
          simp
        · simp only [parseRow, hdet, hmaj, q1', q2', q3']
          simp

/-! ### DataFrame toolbox -/

theorem hasCol_iff (df : DF) (l : String) : hasCol df l = true ↔ l ∈ labels df := by
  simp only [hasCol, labels, List.any_eq_true, List.mem_map, beq_iff_eq]

theorem hasCol_eq_false_iff (df : DF) (l : String) :
    hasCol df l = false ↔ l ∉ labels df := by
  rw [← hasCol_iff]
  simp

theorem labels_setCol (df : DF) (l : String) (cells : List Cell) :
    labels (setCol df l cells) =
      if l ∈ labels df then labels df else labels df ++ [l] := by
  by_cases h : l ∈ labels df
  · rw [if_pos h, setCol, if_pos ((hasCol_iff df l).mpr h)]
    unfold labels
    rw [List.map_map]
    apply List.map_congr_left
    intro c _
    by_cases hc : (c.1 == l) = true
    · simp only [Function.comp, hc, if_true]
      exact (beq_iff_eq.mp hc).symm
    · simp [Function.comp, hc]
  · rw [if_neg h, setCol]
    rw [if_neg (by rw [(hasCol_eq_false_iff df l).mpr h]; exact Bool.false_ne_true)]
    simp [labels]

theorem labels_mapCol (df : DF) (l : String) (f : Cell → Cell) :
    labels (mapCol df l f) = labels df := by
  unfold mapCol labels
  rw [List.map_map]
  apply List.map_congr_left
  intro c _
  by_cases hc : (c.1 == l) = true
  · simp [Function.comp, hc]
  · simp [Function.comp, hc]

theorem getCol?_eq_none (df : DF) (l : String) (h : l ∉ labels df) :
    getCol? df l = none := by
  unfold getCol?
  rw [List.find?_eq_none.mpr]
  · rfl
  · intro c hc
    simp only [beq_iff_eq]
    intro he
    exact h (by exact List.mem_map.mpr ⟨c, hc, he⟩)

theorem getCol?_cons (c : String × List Cell) (t : DF) (l : String) :
    getCol? (c :: t) l = if c.1 == l then some c.2 else getCol? t l := by
  unfold getCol?
  rw [List.find?_cons]
  cases hc : (c.1 == l) with
  | true => simp
  | false => simp

theorem getCol?_append_left (df d2 : DF) (l : String) (h : l ∈ labels df) :
    getCol? (df ++ d2) l = getCol? df l := by
  induction df with
  | nil => simp [labels] at h
  | cons c t ih =>
    rw [List.cons_append, getCol?_cons, getCol?_cons]
    by_cases hc : (c.1 == l) = true
    · rw [if_pos hc, if_pos hc]
    · rw [if_neg hc, if_neg hc]
      refine ih ?_
      rcases List.mem_cons.mp h with h | h
      · exact absurd (by simp [h]) hc
      · exact h

theorem getCol?_append_right (df d2 : DF) (l : String) (h : l ∉ labels df) :
    getCol? (df ++ d2) l = getCol? d2 l := by
  induction df with
  | nil => rfl
  | cons c t ih =>
    rw [List.cons_append, getCol?_cons]
    have hc : (c.1 == l) = false := by
      simp only [beq_eq_false_iff_ne, ne_eq]
      intro he
      exact h (by simp [labels, he])
    rw [if_neg (by simp [hc])]
    exact ih (fun hm => h (by simp [labels] at hm ⊢; exact Or.inr hm))

theorem getCol?_setCol_self (df : DF) (l : String) (cells : List Cell) :
    getCol? (setCol df l cells) l = some cells := by
  unfold setCol
  by_cases h : hasCol df l = true
  · rw [if_pos h]
    have hm : l ∈ labels df := (hasCol_iff df l).mp h
    clear h
    induction df with
    | nil => simp [labels] at hm
    | cons c t ih =>
      rw [List.map_cons]
      by_cases hc : (c.1 == l) = true
      · rw [if_pos hc, getCol?_cons]
        simp
      · rw [if_neg hc, getCol?_cons, if_neg hc]
        refine ih ?_
        rcases List.mem_cons.mp hm with hm | hm
        · exact absurd (by simp [hm]) hc
        · exact hm
  · rw [if_neg h]
    rw [getCol?_append_right df _ l ((hasCol_eq_false_iff df l).mp (by simpa using h))]
    rw [getCol?_cons]
    simp

theorem getCol?_setCol_ne (df : DF) (l l' : String) (cells : List Cell)
    (h : l' ≠ l) : getCol? (setCol df l cells) l' = getCol? df l' := by
  unfold setCol
  by_cases hc : hasCol df l = true
  · rw [if_pos hc]
    clear hc
    induction df with
    | nil => rfl
    | cons c t ih =>
      rw [List.map_cons]
      by_cases hcl : (c.1 == l) = true
      · have h2 : (c.1 == l') = false := by
          rw [beq_iff_eq.mp hcl]
          exact beq_eq_false_iff_ne.mpr (fun he => h he.symm)
        rw [if_pos hcl, getCol?_cons, getCol?_cons]
        have h1 : ((l, cells).1 == l') = false :=
          beq_eq_false_iff_ne.mpr (fun he => h he.symm)
        rw [if_neg (by simp [h1]), if_neg (by simp [h2])]
        exact ih
      · rw [if_neg hcl, getCol?_cons, getCol?_cons]
        by_cases hcl' : (c.1 == l') = true
        · rw [if_pos hcl', if_pos hcl']
        · rw [if_neg hcl', if_neg hcl']
          exact ih
  · rw [if_neg hc]
    by_cases hm : l' ∈ labels df
    · exact getCol?_append_left df _ l' hm
    · rw [getCol?_append_right df _ l' hm, getCol?_eq_none df l' hm, getCol?_cons]
      have h1 : ((l, cells).1 == l') = false :=
        beq_eq_false_iff_ne.mpr (fun he => h he.symm)
      rw [if_neg (by simp [h1])]
      rfl

theorem getCol?_mapCol_self (df : DF) (l : String) (f : Cell → Cell) :
    getCol? (mapCol df l f) l = (getCol? df l).map (List.map f) := by
  induction df with
  | nil => rfl
  | cons c t ih =>
    unfold mapCol at ih ⊢
    rw [List.map_cons]
    by_cases hc : (c.1 == l) = true
    · rw [if_pos hc, getCol?_cons, getCol?_cons]
      simp [hc]
    · rw [if_neg hc, getCol?_cons, getCol?_cons, if_neg hc, if_neg hc]
      exact ih

theorem getCol?_mapCol_ne (df : DF) (l l' : String) (f : Cell → Cell)
    (h : l' ≠ l) : getCol? (mapCol df l f) l' = getCol? df l' := by
  induction df with
  | nil => rfl
  | cons c t ih =>
    unfold mapCol at ih ⊢
    rw [List.map_cons]
    by_cases hc : (c.1 == l) = true
    · have h2 : (c.1 == l') = false := by
        rw [beq_iff_eq.mp hc]
        exact beq_eq_false_iff_ne.mpr (fun he => h he.symm)
      rw [if_pos hc, getCol?_cons, getCol?_cons]
      rw [if_neg (by simp [h2]), if_neg (by simp [h2])]
      exact ih
    · rw [if_neg hc, getCol?_cons, getCol?_cons]
      by_cases hc' : (c.1 == l') = true
      · rw [if_pos hc', if_pos hc']
      · rw [if_neg hc', if_neg hc']
        exact ih

theorem RectN_setCol {df : DF} {n : Nat} {l : String} {cells : List Cell}
    (h : RectN df n) (hc : cells.length = n) : RectN (setCol df l cells) n := by
  unfold setCol
  by_cases hh : hasCol df l = true
  · rw [if_pos hh]
    intro c hm
    rcases List.mem_map.mp hm with ⟨c0, hc0, rfl⟩
    by_cases hcl : (c0.1 == l) = true
    · simpa [hcl] using hc
    · simpa [hcl] using h c0 hc0
  · rw [if_neg hh]
    intro c hm
    rcases List.mem_append.mp hm with hm | hm
    · exact h c hm
    · rcases List.mem_singleton.mp hm with rfl
      exact hc

theorem RectN_mapCol {df : DF} {n : Nat} {l : String} {f : Cell → Cell}
    (h : RectN df n) : RectN (mapCol df l f) n := by
  intro c hm
  rcases List.mem_map.mp hm with ⟨c0, hc0, rfl⟩
  by_cases hcl : (c0.1 == l) = true
  · simpa [hcl] using h c0 hc0
  · simpa [hcl] using h c0 hc0

theorem RectN_append {df d2 : DF} {n : Nat} (h : RectN df n) (h2 : RectN d2 n) :
    RectN (df ++ d2) n := by
  intro c hm
  rcases List.mem_append.mp hm with hm | hm
  · exact h c hm
  · exact h2 c hm

theorem RectN_filter {df : DF} {n : Nat} (p : String × List Cell → Bool)
    (h : RectN df n) : RectN (df.filter p) n :=
  fun c hm => h c (List.mem_of_mem_filter hm)

theorem nrows_of_RectN {df : DF} {n : Nat} (h : RectN df n) (hne : df ≠ []) :
    nrows df = n := by
  cases df with
  | nil => exact absurd rfl hne
  | cons c t => exact h c (by simp)

theorem length_filter_eq_count (df : DF) (l : String) :
    (df.filter (fun c => c.1 == l)).length = (labels df).count l := by
  induction df with
  | nil => rfl
  | cons c t ih =>
    rw [List.filter_cons]
    by_cases hc : (c.1 == l) = true
    · rw [if_pos hc]
      have h2 : (labels (c :: t)).count l = (labels t).count l + 1 := by
        have : labels (c :: t) = c.1 :: labels t := rfl
        rw [this, beq_iff_eq.mp hc, List.count_cons_self]
      rw [h2]
      simpa using ih
    · rw [if_neg hc]
      have h2 : (labels (c :: t)).count l = (labels t).count l := by
        have h3 : labels (c :: t) = c.1 :: labels t := rfl
        rw [h3]
        exact List.count_cons_of_ne (fun he => hc (by simp [he])) _
      rw [h2, ih]

theorem dedupe_noop (df : DF) (c : String) (h : (labels df).Nodup) :
    dedupe_and_bfill_column df c = df := by
  have hle : (df.filter (fun x => x.1 == c)).length ≤ 1 := by
    rw [length_filter_eq_count]
    exact List.nodup_iff_count_le_one.mp h c
  simp only [dedupe_and_bfill_column]
  rw [if_neg (by omega)]

theorem dedupeStage_noop (df : DF) (h : (labels df).Nodup) :
    dedupeStage df = df := by
  unfold dedupeStage
  rw [dedupe_noop df "Name" h, dedupe_noop df "License" h]

/-! ### Stage lemmas -/

theorem hasCol_append_single (d : DF) (y : String × List Cell) (x : String) :
    hasCol (d ++ [y]) x = (hasCol d x || (y.1 == x)) := by
  simp [hasCol, List.any_append]

theorem nrows_append_replicate (d : DF) (c : String) (v : Cell) :
    nrows (d ++ [(c, List.replicate (nrows d) v)]) = nrows d := by
  cases d with
  | nil => simp [nrows]
  | cons a t => simp [nrows]

/-- The step function of `ensureFinalCols`. -/
theorem ensure_fold_labels (cols : List String) (d : DF) (h : cols.Nodup) :
    labels (List.foldl
      (fun d col => if hasCol d col then d
        else d ++ [(col, List.replicate (nrows d) (.str ""))]) d cols) =
      labels d ++ cols.filter (fun c => !hasCol d c) := by
  induction cols generalizing d with
  | nil => simp
  | cons c cs ih =>
    rw [List.foldl_cons, List.filter_cons]
    by_cases hc : hasCol d c = true
    · rw [if_pos hc, ih d (by exact h.of_cons)]
      simp [hc]
    · have hc' : hasCol d c = false := by simpa using hc
      rw [if_neg (by simp [hc'])]
      rw [ih _ (by exact h.of_cons)]
      have hlab : labels (d ++ [(c, List.replicate (nrows d) (.str ""))]) =
          labels d ++ [c] := by simp [labels]
      have hfil : cs.filter (fun x => !hasCol (d ++ [(c, List.replicate (nrows d) (.str ""))]) x) =
          cs.filter (fun x => !hasCol d x) := by
        apply List.filter_congr
        intro x hx
        have hxc : (c == x) = false :=
          beq_eq_false_iff_ne.mpr (fun he => (List.nodup_cons.mp h).1 (he ▸ hx))
        rw [hasCol_append_single]
        simp [hxc]
      rw [hlab, hfil]
      simp [hc']

theorem ensure_fold_nrows (cols : List String) (d : DF) :
    nrows (List.foldl
      (fun d col => if hasCol d col then d
        else d ++ [(col, List.replicate (nrows d) (.str ""))]) d cols) = nrows d := by
  induction cols generalizing d with
  | nil => rfl
  | cons c cs ih =>
    rw [List.foldl_cons]
    by_cases hc : hasCol d c = true
    · rw [if_pos hc, ih]
    · rw [if_neg (by simpa using hc), ih, nrows_append_replicate]

theorem ensure_fold_rect (cols : List String) (d : DF) (n : Nat)
    (hr : RectN d n) (hn : nrows d = n) :
    RectN (List.foldl
      (fun d col => if hasCol d col then d
        else d ++ [(col, List.replicate (nrows d) (.str ""))]) d cols) n := by
  induction cols generalizing d with
  | nil => exact hr
  | cons c cs ih =>
    rw [List.foldl_cons]
    by_cases hc : hasCol d c = true
    · rw [if_pos hc]
      exact ih d hr hn
    · rw [if_neg (by simpa using hc)]
      refine ih _ ?_ ?_
      · refine RectN_append hr ?_
        intro x hx
        rcases List.mem_singleton.mp hx with rfl
        simp [hn]
      · rw [nrows_append_replicate, hn]

theorem ensure_fold_getCol?_mem (cols : List String) (d : DF) (l : String)
    (h : l ∈ labels d) :
    getCol? (List.foldl
      (fun d col => if hasCol d col then d
        else d ++ [(col, List.replicate (nrows d) (.str ""))]) d cols) l =
      getCol? d l := by
  induction cols generalizing d with
  | nil => rfl
  | cons c cs ih =>
    rw [List.foldl_cons]
    by_cases hc : hasCol d c = true
    · rw [if_pos hc]
      exact ih d h
    · rw [if_neg (by simpa using hc)]
      rw [ih _ (by simp [labels, List.mem_append]; left; simpa [labels] using h)]
      exact getCol?_append_left d _ l h

theorem ensure_fold_getCol?_new (cols : List String) (l : String) :
    ∀ (d : DF), l ∈ cols → l ∉ labels d →
    getCol? (List.foldl
      (fun d col => if hasCol d col then d
        else d ++ [(col, List.replicate (nrows d) (.str ""))]) d cols) l =
      some (List.replicate (nrows d) (.str "")) := by
  induction cols with
  | nil =>
    intro d hl _
    simp at hl
  | cons c cs ih =>
    intro d hl hnm
    rw [List.foldl_cons]
    by_cases heq : l = c
    · subst heq
      have hc : hasCol d l = false := (hasCol_eq_false_iff d l).mpr hnm
      rw [if_neg (by simp [hc])]
      rw [ensure_fold_getCol?_mem cs _ l (by simp [labels])]
      rw [getCol?_append_right d _ l hnm, getCol?_cons]
      simp
    · have hl' : l ∈ cs := by
        rcases List.mem_cons.mp hl with h | h
        · exact absurd h heq
        · exact h
      by_cases hc : hasCol d c = true
      · rw [if_pos hc]
        exact ih d hl' hnm
      · rw [if_neg (by simpa using hc)]
        have hnm' : l ∉ labels (d ++ [(c, List.replicate (nrows d) (.str ""))]) := by
          simp only [labels, List.map_append, List.mem_append]
          rintro (h | h)
          · exact hnm h
          · simp at h
            exact heq h
        rw [ih _ hl' hnm', nrows_append_replicate]

theorem labels_setCol_nodup (d : DF) (x : String) (cells : List Cell)
    (h : (labels d).Nodup) : (labels (setCol d x cells)).Nodup := by
  rw [labels_setCol]
  by_cases hm : x ∈ labels d
  · rw [if_pos hm]
    exact h
  · rw [if_neg hm]
    simp [List.nodup_append, h, hm]

theorem mem_labels_setCol_elim (d : DF) (x l : String) (cells : List Cell)
    (h : l ∈ labels (setCol d x cells)) : l ∈ labels d ∨ l = x := by
  rw [labels_setCol] at h
  by_cases hm : x ∈ labels d
  · rw [if_pos hm] at h
    exact Or.inl h
  · rw [if_neg hm] at h
    rcases List.mem_append.mp h with h | h
    · exact Or.inl h
    · exact Or.inr (List.mem_singleton.mp h)

theorem mem_labels_setCol_of_mem (d : DF) (x l : String) (cells : List Cell)
    (h : l ∈ labels d) : l ∈ labels (setCol d x cells) := by
  rw [labels_setCol]
  by_cases hm : x ∈ labels d
  · rw [if_pos hm]; exact h
  · rw [if_neg hm]; exact List.mem_append.mpr (Or.inl h)

/-- Generic single-column update map (the shape shared by the Task
cleanup, `mapCol` and `_fill_if_empty`). -/
theorem labels_colUpdate (d : DF) (base : String) (g : List Cell → List Cell) :
    labels (d.map (fun c => if c.1 == base then (c.1, g c.2) else c)) = labels d := by
  unfold labels
  rw [List.map_map]
  apply List.map_congr_left
  intro c _
  by_cases hc : (c.1 == base) = true
  · simp [Function.comp, hc]
  · simp [Function.comp, hc]

theorem getCol?_colUpdate_self (d : DF) (base : String) (g : List Cell → List Cell) :
    getCol? (d.map (fun c => if c.1 == base then (c.1, g c.2) else c)) base =
      (getCol? d base).map g := by
  induction d with
  | nil => rfl
  | cons c t ih =>
    rw [List.map_cons]
    by_cases hc : (c.1 == base) = true
    · rw [if_pos hc, getCol?_cons, getCol?_cons]
      simp [hc]
    · rw [if_neg hc, getCol?_cons, getCol?_cons, if_neg hc, if_neg hc]
      exact ih

theorem getCol?_colUpdate_ne (d : DF) (base l : String) (g : List Cell → List Cell)
    (h : l ≠ base) :
    getCol? (d.map (fun c => if c.1 == base then (c.1, g c.2) else c)) l =
      getCol? d l := by
  induction d with
  | nil => rfl
  | cons c t ih =>
    rw [List.map_cons]
    by_cases hc : (c.1 == base) = true
    · have h2 : (c.1 == l) = false := by
        rw [beq_iff_eq.mp hc]
        exact beq_eq_false_iff_ne.mpr (fun he => h he.symm)
      rw [if_pos hc, getCol?_cons, getCol?_cons]
      rw [if_neg (by simp [h2]), if_neg (by simp [h2])]
      exact ih
    · rw [if_neg hc, getCol?_cons, getCol?_cons]
      by_cases hc' : (c.1 == l) = true
      · rw [if_pos hc', if_pos hc']
      · rw [if_neg hc', if_neg hc']
        exact ih

theorem RectN_colUpdate {d : DF} {n : Nat} {base : String} {g : List Cell → List Cell}
    (hr : RectN d n) (hg : ∀ cs, cs.length = n → (g cs).length = n) :
    RectN (d.map (fun c => if c.1 == base then (c.1, g c.2) else c)) n := by
  intro c hm
  rcases List.mem_map.mp hm with ⟨c0, hc0, rfl⟩
  by_cases hc : (c0.1 == base) = true
  · simpa [hc] using hg c0.2 (hr c0 hc0)
  · simpa [hc] using hr c0 hc0

theorem mapCol_eq_colUpdate (d : DF) (l : String) (f : Cell → Cell) :
    mapCol d l f = d.map (fun c => if c.1 == l then (c.1, c.2.map f) else c) := rfl

theorem getCol?_length_of_RectN {d : DF} {n : Nat} {l : String} {cs : List Cell}
    (hr : RectN d n) (h : getCol? d l = some cs) : cs.length = n := by
  unfold getCol? at h
  rcases hf : d.find? (fun x => x.1 == l) with _ | v
  · rw [hf] at h
    simp at h
  · rw [hf] at h
    have h2 : v.2 = cs := by simpa using h
    have hv : v ∈ d := List.mem_of_find?_eq_some hf
    rw [← h2]
    exact hr v hv

theorem labels_filter_pred (d : DF) (p : String → Bool) :
    labels (d.filter (fun c => p c.1)) = (labels d).filter p := by
  induction d with
  | nil => rfl
  | cons c t ih =>
    rw [List.filter_cons]
    have hlab : labels (c :: t) = c.1 :: labels t := rfl
    rw [hlab, List.filter_cons]
    by_cases hc : p c.1 = true
    · rw [if_pos hc, if_pos hc]
      have : labels (c :: List.filter (fun c => p c.1) t) =
          c.1 :: labels (List.filter (fun c => p c.1) t) := rfl
      rw [this, ih]
    · rw [if_neg hc, if_neg hc]
      exact ih

theorem getCol?_filter_of_pred (d : DF) (p : String → Bool) (l : String)
    (hl : p l = true) :
    getCol? (d.filter (fun c => p c.1)) l = getCol? d l := by
  induction d with
  | nil => rfl
  | cons c t ih =>
    rw [List.filter_cons]
    by_cases hc : p c.1 = true
    · rw [if_pos hc, getCol?_cons, getCol?_cons]
      by_cases hcl : (c.1 == l) = true
      · rw [if_pos hcl, if_pos hcl]
      · rw [if_neg hcl, if_neg hcl]
        exact ih
    · rw [if_neg hc, getCol?_cons]
      have hcl : (c.1 == l) = false := by
        refine beq_eq_false_iff_ne.mpr (fun he => hc ?_)
        rw [he]
        exact hl
      rw [if_neg (by simp [hcl])]
      exact ih

theorem filter_label_eq_singleton (d : DF) (l : String)
    (h : (labels d).count l = 1) :
    d.filter (fun c => c.1 == l) = [(l, (getCol? d l).getD [])] := by
  induction d with
  | nil => simp [labels] at h
  | cons c t ih =>
    have hlab : labels (c :: t) = c.1 :: labels t := rfl
    rw [List.filter_cons]
    by_cases hc : (c.1 == l) = true
    · rw [if_pos hc]
      have hzero : (labels t).count l = 0 := by
        rw [hlab, beq_iff_eq.mp hc, List.count_cons_self] at h
        omega
      have hfil : t.filter (fun c => c.1 == l) = [] := by
        rw [← List.length_eq_zero]
        rw [length_filter_eq_count, hzero]
      rw [hfil, getCol?_cons, if_pos hc]
      have hcl : c = (l, c.2) := Prod.ext (beq_iff_eq.mp hc) rfl
      rw [hcl]
      rfl
    · rw [if_neg hc]
      have hcount : (labels t).count l = 1 := by
        rw [hlab, List.count_cons_of_ne (fun he => hc (by simp [he]))] at h
        exact h
      rw [getCol?_cons, if_neg hc]
      exact ih hcount

theorem flatMap_singletons {α β : Type} (L : List α) (f : α → List β) (g : α → β)
    (h : ∀ x ∈ L, f x = [g x]) : L.flatMap f = L.map g := by
  induction L with
  | nil => rfl
  | cons c t ih =>
    rw [List.flatMap_cons, List.map_cons, h c (by simp),
      ih (fun x hx => h x (by simp [hx]))]
    rfl

theorem selectFinal_spec (d : DF)
    (h : ∀ l ∈ FINAL_COLUMNS, (labels d).count l = 1) :
    selectFinal d = FINAL_COLUMNS.map (fun l => (l, (getCol? d l).getD [])) := by
  unfold selectFinal
  exact flatMap_singletons _ _ _ (fun l hl => filter_label_eq_singleton d l (h l hl))

theorem labels_selectFinal (d : DF)
    (h : ∀ l ∈ FINAL_COLUMNS, (labels d).count l = 1) :
    labels (selectFinal d) = FINAL_COLUMNS := by
  rw [selectFinal_spec d h]
  unfold labels
  rw [List.map_map]
  have hid : (Prod.fst ∘ fun l => (l, (getCol? d l).getD [])) = id := rfl
  rw [hid, List.map_id]

theorem getCol?_map_assoc (L : List String) (F : String → List Cell) (l : String)
    (hl : l ∈ L) :
    getCol? (L.map (fun x => (x, F x))) l = some (F l) := by
  induction L with
  | nil => simp at hl
  | cons c t ih =>
    rw [List.map_cons, getCol?_cons]
    by_cases hc : (c == l) = true
    · rw [if_pos (by simpa using hc)]
      rw [beq_iff_eq.mp hc]
    · rw [if_neg (by simpa using hc)]
      refine ih ?_
      rcases List.mem_cons.mp hl with h | h
      · exact absurd (by simp [h]) hc
      · exact h

theorem getCol?_isSome_of_mem (df : DF) (l : String) (h : l ∈ labels df) :
    (getCol? df l).isSome = true := by
  induction df with
  | nil => simp [labels] at h
  | cons c t ih =>
    rw [getCol?_cons]
    by_cases hc : (c.1 == l) = true
    · rw [if_pos hc]
      rfl
    · rw [if_neg hc]
      refine ih ?_
      rcases List.mem_cons.mp h with h | h
      · exact absurd (by simp [h]) hc
      · exact h

theorem getCol?_some_of_mem (df : DF) (l : String) (h : l ∈ labels df) :
    getCol? df l = some ((getCol? df l).getD []) := by
  have := getCol?_isSome_of_mem df l h
  rcases hg : getCol? df l with _ | v
  · rw [hg] at this
    simp at this
  · rfl

/-! ### Preparation-stage lemmas -/

theorem labels_renameCols (d : DF) :
    labels (renameCols d) = (labels d).map aliasTarget := by
  unfold renameCols labels
  rw [List.map_map, List.map_map]
  rfl

theorem nrows_stripHeaders (d : DF) : nrows (stripHeaders d) = nrows d := by
  cases d with
  | nil => rfl
  | cons c t => rfl

theorem nrows_renameCols (d : DF) : nrows (renameCols d) = nrows d := by
  cases d with
  | nil => rfl
  | cons c t => rfl

theorem RectN_stripHeaders {d : DF} {n : Nat} (h : RectN d n) :
    RectN (stripHeaders d) n := by
  intro c hm
  rcases List.mem_map.mp hm with ⟨c0, hc0, rfl⟩
  exact h c0 hc0

theorem RectN_renameCols {d : DF} {n : Nat} (h : RectN d n) :
    RectN (renameCols d) n := by
  intro c hm
  rcases List.mem_map.mp hm with ⟨c0, hc0, rfl⟩
  exact h c0 hc0

theorem taskStep_cases (d : DF) :
    (hasCol d "Task" = true ∧
      taskStep d = mapCol d "Task" (fun c => .str (taskClean (cellToStr c)))) ∨
    (hasCol d "Task" = false ∧
      taskStep d = d ++ [("Task", List.replicate (nrows d) (.str "Uncategorized Models"))]) := by
  unfold taskStep
  by_cases h : hasCol d "Task" = true
  · exact Or.inl ⟨h, by rw [if_pos h]⟩
  · exact Or.inr ⟨by simpa using h, by rw [if_neg h]⟩

theorem nrows_mapCol (d : DF) (l : String) (f : Cell → Cell) :
    nrows (mapCol d l f) = nrows d := by
  cases d with
  | nil => rfl
  | cons c t =>
    show (if c.1 == l then (c.1, c.2.map f) else c).2.length = c.2.length
    by_cases hc : (c.1 == l) = true
    · rw [if_pos hc]
      simp
    · rw [if_neg hc]

theorem nrows_taskStep (d : DF) : nrows (taskStep d) = nrows d := by
  rcases taskStep_cases d with ⟨_, he⟩ | ⟨_, he⟩
  · rw [he, nrows_mapCol]
  · rw [he, nrows_append_replicate]

theorem RectN_taskStep {d : DF} {n : Nat} (h : RectN d n) (hn : nrows d = n) :
    RectN (taskStep d) n := by
  rcases taskStep_cases d with ⟨_, he⟩ | ⟨_, he⟩
  · rw [he, mapCol_eq_colUpdate]
    exact RectN_colUpdate h (fun cs hcs => by simpa using hcs)
  · rw [he]
    refine RectN_append h ?_
    intro c hm
    rcases List.mem_singleton.mp hm with rfl
    simp [hn]

theorem RectN_prepare {d : DF} (h : Rect d) : RectN (prepare d) (nrows d) := by
  unfold prepare
  have h1 : RectN (stripHeaders d) (nrows d) := RectN_stripHeaders h
  have h2 : nrows (stripHeaders d) = nrows d := nrows_stripHeaders d
  exact RectN_renameCols (RectN_taskStep h1 h2)

theorem nrows_prepare (d : DF) : nrows (prepare d) = nrows d := by
  unfold prepare
  rw [nrows_renameCols, nrows_taskStep, nrows_stripHeaders]

theorem task_mem_taskStep (d : DF) : "Task" ∈ labels (taskStep d) := by
  rcases taskStep_cases d with ⟨h, he⟩ | ⟨_, he⟩
  · rw [he, mapCol_eq_colUpdate, labels_colUpdate]
    exact (hasCol_iff d "Task").mp h
  · rw [he]
    simp [labels]

theorem task_mem_prepare (d : DF) : "Task" ∈ labels (prepare d) := by
  unfold prepare
  rw [labels_renameCols]
  refine List.mem_map.mpr ⟨"Task", task_mem_taskStep (stripHeaders d), by decide⟩

theorem prepare_ne_nil (d : DF) : prepare d ≠ [] := by
  intro h
  have := task_mem_prepare d
  rw [h] at this
  simp [labels] at this

/-- Under a duplicate-free renamed header, looking up a fixed-point label
after renaming is looking it up before renaming. -/
theorem getCol?_renameCols_of_nodup (d : DF) (l : String)
    (hl : aliasTarget l = l) (hmem : l ∈ labels d)
    (hnodup : (labels (renameCols d)).Nodup) :
    getCol? (renameCols d) l = getCol? d l := by
  induction d with
  | nil => rfl
  | cons c t ih =>
    have hren : renameCols (c :: t) = (aliasTarget c.1, c.2) :: renameCols t := rfl
    rw [hren, getCol?_cons, getCol?_cons]
    by_cases hx : (aliasTarget c.1 == l) = true
    · rw [if_pos (by simpa using hx)]
      by_cases hcl : (c.1 == l) = true
      · rw [if_pos hcl]
      · have hmem' : l ∈ labels t := by
          rcases List.mem_cons.mp hmem with h | h
          · exact absurd (by simp [h]) hcl
          · exact h
        exfalso
        have hhead : labels (renameCols (c :: t)) =
            aliasTarget c.1 :: labels (renameCols t) := rfl
        rw [hhead] at hnodup
        have : aliasTarget c.1 ∈ labels (renameCols t) := by
          rw [labels_renameCols, beq_iff_eq.mp hx]
          rw [← hl]
          exact List.mem_map.mpr ⟨l, hmem', rfl⟩
        exact (List.nodup_cons.mp hnodup).1 this
    · have hcl : (c.1 == l) = false := by
        refine beq_eq_false_iff_ne.mpr (fun he => ?_)
        rw [he, hl] at hx
        simp at hx
      rw [if_neg hx, if_neg (by simp [hcl])]
      have hmem' : l ∈ labels t := by
        rcases List.mem_cons.mp hmem with h | h
        · rw [h] at hcl
          simp at hcl
        · exact h
      have hhead : labels (renameCols (c :: t)) =
          aliasTarget c.1 :: labels (renameCols t) := rfl
      rw [hhead] at hnodup
      exact ih hmem' (List.nodup_cons.mp hnodup).2

/-! ### Parsing, link, numeric, key, license and merge stage lemmas -/

theorem parsor_empty (d : DF) (h : nrows d = 0) : _metric_accuracy_parsor d = [] := by
  unfold _metric_accuracy_parsor
  rw [if_pos (by simp [h])]

theorem parsor_eq (d : DF) (h : ¬ nrows d = 0) :
    _metric_accuracy_parsor d =
      setCol
        (setCol (setCol d "Metric" ((parsorCols d).map (fun t => .str t.1)))
          "Raw Accuracy" ((parsorCols d).map (fun t => .str t.2.1)))
        "NPU Accuracy" ((parsorCols d).map (fun t => .str t.2.2)) := by
  unfold _metric_accuracy_parsor
  rw [if_neg (by simp [h])]

theorem accuracyStrs_length {d : DF} {n : Nat} (col : String)
    (hr : RectN d n) (hn : nrows d = n) : (accuracyStrs d col).length = n := by
  unfold accuracyStrs
  rcases hg : getCol? d col with _ | cs
  · simp [hn]
  · simp [getCol?_length_of_RectN hr hg]

theorem parsorCols_length {d : DF} {n : Nat} (hr : RectN d n) (hn : nrows d = n) :
    (parsorCols d).length = n := by
  unfold parsorCols
  rw [List.length_zipWith, accuracyStrs_length _ hr hn, accuracyStrs_length _ hr hn]
  simp

theorem getCol?_parsor_ne (d : DF) (l : String) (h0 : ¬ nrows d = 0)
    (h1 : l ≠ "Metric") (h2 : l ≠ "Raw Accuracy") (h3 : l ≠ "NPU Accuracy") :
    getCol? (_metric_accuracy_parsor d) l = getCol? d l := by
  rw [parsor_eq d h0, getCol?_setCol_ne _ _ _ _ h3, getCol?_setCol_ne _ _ _ _ h2,
    getCol?_setCol_ne _ _ _ _ h1]

theorem parsor_labels_nodup (d : DF) (h : (labels d).Nodup) :
    (labels (_metric_accuracy_parsor d)).Nodup := by
  by_cases h0 : nrows d = 0
  · rw [parsor_empty d h0]
    simp [labels]
  · rw [parsor_eq d h0]
    exact labels_setCol_nodup _ _ _ (labels_setCol_nodup _ _ _ (labels_setCol_nodup _ _ _ h))

theorem parsor_mem_elim (d : DF) (l : String)
    (h : l ∈ labels (_metric_accuracy_parsor d)) :
    l ∈ labels d ∨ l = "Metric" ∨ l = "Raw Accuracy" ∨ l = "NPU Accuracy" := by
  by_cases h0 : nrows d = 0
  · rw [parsor_empty d h0] at h
    simp [labels] at h
  · rw [parsor_eq d h0] at h
    rcases mem_labels_setCol_elim _ _ _ _ h with h | h
    · rcases mem_labels_setCol_elim _ _ _ _ h with h | h
      · rcases mem_labels_setCol_elim _ _ _ _ h with h | h
        · exact Or.inl h
        · exact Or.inr (Or.inl h)
      · exact Or.inr (Or.inr (Or.inl h))
    · exact Or.inr (Or.inr (Or.inr h))

theorem RectN_parsor {d : DF} {n : Nat} (hr : RectN d n) (hne : d ≠ []) :
    RectN (_metric_accuracy_parsor d) n := by
  by_cases h0 : nrows d = 0
  · rw [parsor_empty d h0]
    intro c hc
    simp at hc
  · have hn : nrows d = n := nrows_of_RectN hr hne
    have hp : (parsorCols d).length = n := parsorCols_length hr hn
    rw [parsor_eq d h0]
    refine RectN_setCol (RectN_setCol (RectN_setCol hr ?_) ?_) ?_ <;>
      simp [hp]

theorem linkStage_eq (d : DF) :
    linkStage d =
      mapCol (mapCol (mapCol (mapCol d
        "Source" (fun c => .str (create_html_link c "Source")))
        "Compiled" (fun c => .str (create_html_link c "Compiled")))
        "onnx" (fun c => .str (create_html_link c "onnx")))
        "json" (fun c => .str (create_html_link c "json")) := rfl

theorem labels_linkStage (d : DF) : labels (linkStage d) = labels d := by
  rw [linkStage_eq, labels_mapCol, labels_mapCol, labels_mapCol, labels_mapCol]

theorem getCol?_linkStage_ne (d : DF) (l : String)
    (h1 : l ≠ "Source") (h2 : l ≠ "Compiled") (h3 : l ≠ "onnx") (h4 : l ≠ "json") :
    getCol? (linkStage d) l = getCol? d l := by
  rw [linkStage_eq, getCol?_mapCol_ne _ _ _ _ h4, getCol?_mapCol_ne _ _ _ _ h3,
    getCol?_mapCol_ne _ _ _ _ h2, getCol?_mapCol_ne _ _ _ _ h1]

theorem RectN_linkStage {d : DF} {n : Nat} (h : RectN d n) :
    RectN (linkStage d) n := by
  rw [linkStage_eq]
  exact RectN_mapCol (RectN_mapCol (RectN_mapCol (RectN_mapCol h)))

theorem numericStage_eq (d : DF) :
    numericStage d =
      mapCol (mapCol (mapCol (mapCol
        (mapCol (mapCol (mapCol (mapCol d
          "Operations" to_numeric_cell) "Parameters" to_numeric_cell)
          "FPS" to_numeric_cell) "FPS/Watt" to_numeric_cell)
        "Operations" (fmtCell 2)) "Parameters" (fmtCell 2))
        "FPS" (fmtCell 0)) "FPS/Watt" (fmtCell 2) := rfl

theorem labels_numericStage (d : DF) : labels (numericStage d) = labels d := by
  rw [numericStage_eq, labels_mapCol, labels_mapCol, labels_mapCol, labels_mapCol,
    labels_mapCol, labels_mapCol, labels_mapCol, labels_mapCol]

theorem getCol?_numericStage_ne (d : DF) (l : String)
    (h1 : l ≠ "Operations") (h2 : l ≠ "Parameters") (h3 : l ≠ "FPS")
    (h4 : l ≠ "FPS/Watt") :
    getCol? (numericStage d) l = getCol? d l := by
  rw [numericStage_eq, getCol?_mapCol_ne _ _ _ _ h4, getCol?_mapCol_ne _ _ _ _ h3,
    getCol?_mapCol_ne _ _ _ _ h2, getCol?_mapCol_ne _ _ _ _ h1,
    getCol?_mapCol_ne _ _ _ _ h4, getCol?_mapCol_ne _ _ _ _ h3,
    getCol?_mapCol_ne _ _ _ _ h2, getCol?_mapCol_ne _ _ _ _ h1]

theorem RectN_numericStage {d : DF} {n : Nat} (h : RectN d n) :
    RectN (numericStage d) n := by
  rw [numericStage_eq]
  exact RectN_mapCol (RectN_mapCol (RectN_mapCol (RectN_mapCol
    (RectN_mapCol (RectN_mapCol (RectN_mapCol (RectN_mapCol h)))))))

theorem matchKeyStage_eq (d : DF) (h : hasCol d "Name" = true) :
    matchKeyStage d =
      setCol d "_match_key_"
        (((getCol? d "Name").getD []).map (fun c => .str (normalizeKeyStr (cellToStr c)))) := by
  unfold matchKeyStage
  rw [if_pos h]

theorem licenseStage_eq (d : DF) (h : hasCol d "License" = true) :
    licenseStage d =
      mapCol (mapCol d "License" (fun c => if isNaCell c then .str "Not Specified" else c))
        "License" (fun c => if pyStrip (cellToStr c) == "" then .str "Not Specified" else c) := by
  unfold licenseStage
  rw [if_pos h]

theorem fillIfEmpty_eq (df : DF) (base mcol : String) (h : hasCol df base = true) :
    fillIfEmpty df base mcol =
      df.map (fun c =>
        if c.1 == base then
          (c.1, List.zipWith (fun b mv => if (cellToStr b).length > 0 then b else mv)
            c.2 ((getCol? df mcol).getD []))
        else c) := by
  unfold fillIfEmpty
  rw [if_pos h]

theorem mergeStage_none (df : DF) : mergeStage df none = df := rfl

/-- Enrichment cells joined against the primary keys for one meta field. -/
theorem mergeStage_some_eq (df : DF) (m : List MetaRow) :
    mergeStage df (some m) =
      (fillIfEmpty (fillIfEmpty (fillIfEmpty
        (df ++
          [("Input Resolution_meta",
            (((getCol? df "_match_key_").getD []).map cellToStr).map (fun k =>
              match m.find? (fun r => r.key == k) with
              | some r => r.ir
              | none => .na)),
           ("Operations_meta",
            (((getCol? df "_match_key_").getD []).map cellToStr).map (fun k =>
              match m.find? (fun r => r.key == k) with
              | some r => r.ops
              | none => .na)),
           ("Parameters_meta",
            (((getCol? df "_match_key_").getD []).map cellToStr).map (fun k =>
              match m.find? (fun r => r.key == k) with
              | some r => r.params
              | none => .na))])
        "Input Resolution" "Input Resolution_meta")
        "Operations" "Operations_meta")
        "Parameters" "Parameters_meta").filter (fun c => !pyEndsWith c.1 "_meta") := rfl

theorem hasCol_append_left (df d2 : DF) (l : String) (h : hasCol df l = true) :
    hasCol (df ++ d2) l = true := by
  simp only [hasCol, List.any_append, Bool.or_eq_true]
  exact Or.inl h

theorem labels_append (df d2 : DF) : labels (df ++ d2) = labels df ++ labels d2 := by
  simp [labels]

theorem labels_fillIfEmpty (df : DF) (base mcol : String)
    (h : hasCol df base = true) :
    labels (fillIfEmpty df base mcol) = labels df := by
  rw [fillIfEmpty_eq df base mcol h]
  exact labels_colUpdate df base
    (fun cs => List.zipWith (fun b mv => if (cellToStr b).length > 0 then b else mv) cs ((getCol? df mcol).getD []))

theorem hasCol_fillIfEmpty (df : DF) (base mcol b : String)
    (h : hasCol df base = true) :
    hasCol (fillIfEmpty df base mcol) b = hasCol df b := by
  rw [Bool.eq_iff_iff, hasCol_iff, hasCol_iff, labels_fillIfEmpty df base mcol h]

theorem getCol?_fillIfEmpty_ne (df : DF) (base mcol l : String)
    (hbase : hasCol df base = true) (h : l ≠ base) :
    getCol? (fillIfEmpty df base mcol) l = getCol? df l := by
  rw [fillIfEmpty_eq df base mcol hbase]
  exact getCol?_colUpdate_ne df base l
    (fun cs => List.zipWith (fun b mv => if (cellToStr b).length > 0 then b else mv) cs ((getCol? df mcol).getD [])) h

theorem getCol?_fillIfEmpty_self (df : DF) (base mcol : String)
    (hbase : hasCol df base = true) :
    getCol? (fillIfEmpty df base mcol) base =
      (getCol? df base).map (fun cs =>
        List.zipWith (fun b mv => if (cellToStr b).length > 0 then b else mv)
          cs ((getCol? df mcol).getD [])) := by
  rw [fillIfEmpty_eq df base mcol hbase]
  exact getCol?_colUpdate_self df base
    (fun cs => List.zipWith (fun b mv => if (cellToStr b).length > 0 then b else mv) cs ((getCol? df mcol).getD []))

theorem RectN_fillIfEmpty {df : DF} {n : Nat} (base mcol : String)
    (hbase : hasCol df base = true) (hr : RectN df n)
    (hm : ((getCol? df mcol).getD []).length = n) :
    RectN (fillIfEmpty df base mcol) n := by
  rw [fillIfEmpty_eq df base mcol hbase]
  refine @RectN_colUpdate df n base
    (fun cs => List.zipWith (fun b mv => if (cellToStr b).length > 0 then b else mv)
      cs ((getCol? df mcol).getD [])) hr ?_
  intro cs hcs
  rw [List.length_zipWith, hcs, hm]
  simp

/-- Structure of the merge body: three appended enrichment columns, three
fills, then the `_meta` cleanup. -/
theorem labels_merge_generic (df X : DF)
    (hnm : NoMeta df)
    (hX : labels X = ["Input Resolution_meta", "Operations_meta", "Parameters_meta"])
    (hIR : hasCol df "Input Resolution" = true)
    (hOps : hasCol df "Operations" = true)
    (hPar : hasCol df "Parameters" = true) :
    labels ((fillIfEmpty (fillIfEmpty (fillIfEmpty (df ++ X)
      "Input Resolution" "Input Resolution_meta")
      "Operations" "Operations_meta")
      "Parameters" "Parameters_meta").filter
        (fun c => !pyEndsWith c.1 "_meta")) = labels df := by
  have h1 : hasCol (df ++ X) "Input Resolution" = true := hasCol_append_left _ _ _ hIR
  have hl1 := labels_fillIfEmpty (df ++ X) "Input Resolution" "Input Resolution_meta" h1
  have h2 : hasCol (fillIfEmpty (df ++ X) "Input Resolution" "Input Resolution_meta")
      "Operations" = true := by
    rw [hasCol_iff, hl1, ← hasCol_iff]
    exact hasCol_append_left _ _ _ hOps
  have hl2 := labels_fillIfEmpty _ "Operations" "Operations_meta" h2
  have h3 : hasCol (fillIfEmpty (fillIfEmpty (df ++ X)
      "Input Resolution" "Input Resolution_meta") "Operations" "Operations_meta")
      "Parameters" = true := by
    rw [hasCol_iff, hl2, hl1, ← hasCol_iff]
    exact hasCol_append_left _ _ _ hPar
  have hl3 := labels_fillIfEmpty _ "Parameters" "Parameters_meta" h3
  rw [labels_filter_pred _ (fun l => !pyEndsWith l "_meta"), hl3, hl2, hl1,
    labels_append, hX, List.filter_append]
  have hkeep : (labels df).filter (fun l => !pyEndsWith l "_meta") = labels df := by
    apply List.filter_eq_self.mpr
    intro l hl
    simp [hnm l hl]
  rw [hkeep]
  norm_num
  decide

theorem labels_mergeStage_some (df : DF) (m : List MetaRow)
    (hnm : NoMeta df)
    (hIR : hasCol df "Input Resolution" = true)
    (hOps : hasCol df "Operations" = true)
    (hPar : hasCol df "Parameters" = true) :
    labels (mergeStage df (some m)) = labels df := by
  rw [mergeStage_some_eq]
  exact labels_merge_generic df _ hnm (by simp [labels]) hIR hOps hPar

theorem merge_generic_has (df X : DF)
    (_hX : labels X = ["Input Resolution_meta", "Operations_meta", "Parameters_meta"])
    (hIR : hasCol df "Input Resolution" = true)
    (hOps : hasCol df "Operations" = true)
    (hPar : hasCol df "Parameters" = true) :
    hasCol (df ++ X) "Input Resolution" = true ∧
    hasCol (fillIfEmpty (df ++ X) "Input Resolution" "Input Resolution_meta")
      "Operations" = true ∧
    hasCol (fillIfEmpty (fillIfEmpty (df ++ X)
      "Input Resolution" "Input Resolution_meta") "Operations" "Operations_meta")
      "Parameters" = true := by
  have h1 : hasCol (df ++ X) "Input Resolution" = true := hasCol_append_left _ _ _ hIR
  have h2 : hasCol (fillIfEmpty (df ++ X) "Input Resolution" "Input Resolution_meta")
      "Operations" = true := by
    rw [hasCol_fillIfEmpty _ _ _ _ h1]
    exact hasCol_append_left _ _ _ hOps
  have h3 : hasCol (fillIfEmpty (fillIfEmpty (df ++ X)
      "Input Resolution" "Input Resolution_meta") "Operations" "Operations_meta")
      "Parameters" = true := by
    rw [hasCol_fillIfEmpty _ _ _ _ h2, hasCol_fillIfEmpty _ _ _ _ h1]
    exact hasCol_append_left _ _ _ hPar
  exact ⟨h1, h2, h3⟩

theorem getCol?_merge_generic_ne (df X : DF) (l : String)
    (hX : labels X = ["Input Resolution_meta", "Operations_meta", "Parameters_meta"])
    (hIR : hasCol df "Input Resolution" = true)
    (hOps : hasCol df "Operations" = true)
    (hPar : hasCol df "Parameters" = true)
    (ha : l ≠ "Input Resolution") (hb : l ≠ "Operations") (hc : l ≠ "Parameters")
    (hlm : pyEndsWith l "_meta" = false) :
    getCol? ((fillIfEmpty (fillIfEmpty (fillIfEmpty (df ++ X)
      "Input Resolution" "Input Resolution_meta")
      "Operations" "Operations_meta")
      "Parameters" "Parameters_meta").filter
        (fun c => !pyEndsWith c.1 "_meta")) l = getCol? df l := by
  obtain ⟨h1, h2, h3⟩ := merge_generic_has df X hX hIR hOps hPar
  rw [getCol?_filter_of_pred _ (fun x => !pyEndsWith x "_meta") l (by simp [hlm]),
    getCol?_fillIfEmpty_ne _ _ _ _ h3 hc, getCol?_fillIfEmpty_ne _ _ _ _ h2 hb,
    getCol?_fillIfEmpty_ne _ _ _ _ h1 ha]
  by_cases hm : l ∈ labels df
  · exact getCol?_append_left df X l hm
  · rw [getCol?_append_right df X l hm, getCol?_eq_none df l hm, getCol?_eq_none X l]
    rw [hX]
    intro hmem
    simp only [List.mem_cons, List.mem_singleton, List.not_mem_nil, or_false] at hmem
    rcases hmem with h | h | h
    · rw [h] at hlm
      exact absurd hlm (by decide)
    · rw [h] at hlm
      exact absurd hlm (by decide)
    · rw [h] at hlm
      exact absurd hlm (by decide)

theorem getCol?_merge_generic_IR (df X : DF)
    (hX : labels X = ["Input Resolution_meta", "Operations_meta", "Parameters_meta"])
    (hnm : NoMeta df)
    (hIR : hasCol df "Input Resolution" = true)
    (hOps : hasCol df "Operations" = true)
    (hPar : hasCol df "Parameters" = true) :
    getCol? ((fillIfEmpty (fillIfEmpty (fillIfEmpty (df ++ X)
      "Input Resolution" "Input Resolution_meta")
      "Operations" "Operations_meta")
      "Parameters" "Parameters_meta").filter
        (fun c => !pyEndsWith c.1 "_meta")) "Input Resolution" =
      (getCol? df "Input Resolution").map (fun cs =>
        List.zipWith (fun b mv => if (cellToStr b).length > 0 then b else mv)
          cs ((getCol? X "Input Resolution_meta").getD [])) := by
  obtain ⟨h1, h2, h3⟩ := merge_generic_has df X hX hIR hOps hPar
  have hnmem : "Input Resolution_meta" ∉ labels df := by
    intro hmem
    have := hnm _ hmem
    exact absurd this (by decide)
  rw [getCol?_filter_of_pred _ (fun x => !pyEndsWith x "_meta") "Input Resolution" (by decide),
    getCol?_fillIfEmpty_ne _ "Parameters" "Parameters_meta" "Input Resolution" h3 (by decide),
    getCol?_fillIfEmpty_ne _ "Operations" "Operations_meta" "Input Resolution" h2 (by decide),
    getCol?_fillIfEmpty_self (df ++ X) "Input Resolution" "Input Resolution_meta" h1,
    getCol?_append_left df X "Input Resolution" ((hasCol_iff _ _).mp hIR),
    getCol?_append_right df X "Input Resolution_meta" hnmem]

theorem getCol?_merge_generic_Ops (df X : DF)
    (hX : labels X = ["Input Resolution_meta", "Operations_meta", "Parameters_meta"])
    (hnm : NoMeta df)
    (hIR : hasCol df "Input Resolution" = true)
    (hOps : hasCol df "Operations" = true)
    (hPar : hasCol df "Parameters" = true) :
    getCol? ((fillIfEmpty (fillIfEmpty (fillIfEmpty (df ++ X)
      "Input Resolution" "Input Resolution_meta")
      "Operations" "Operations_meta")
      "Parameters" "Parameters_meta").filter
        (fun c => !pyEndsWith c.1 "_meta")) "Operations" =
      (getCol? df "Operations").map (fun cs =>
        List.zipWith (fun b mv => if (cellToStr b).length > 0 then b else mv)
          cs ((getCol? X "Operations_meta").getD [])) := by
  obtain ⟨h1, h2, h3⟩ := merge_generic_has df X hX hIR hOps hPar
  have hnmem : "Operations_meta" ∉ labels df := by
    intro hmem
    have := hnm _ hmem
    exact absurd this (by decide)
  rw [getCol?_filter_of_pred _ (fun x => !pyEndsWith x "_meta") "Operations" (by decide),
    getCol?_fillIfEmpty_ne _ "Parameters" "Parameters_meta" "Operations" h3 (by decide),
    getCol?_fillIfEmpty_self _ "Operations" "Operations_meta" h2,
    getCol?_fillIfEmpty_ne (df ++ X) "Input Resolution" "Input Resolution_meta"
      "Operations" h1 (by decide),
    getCol?_append_left df X "Operations" ((hasCol_iff _ _).mp hOps),
    getCol?_fillIfEmpty_ne (df ++ X) "Input Resolution" "Input Resolution_meta"
      "Operations_meta" h1 (by decide),
    getCol?_append_right df X "Operations_meta" hnmem]

theorem getCol?_merge_generic_Par (df X : DF)
    (hX : labels X = ["Input Resolution_meta", "Operations_meta", "Parameters_meta"])
    (hnm : NoMeta df)
    (hIR : hasCol df "Input Resolution" = true)
    (hOps : hasCol df "Operations" = true)
    (hPar : hasCol df "Parameters" = true) :
    getCol? ((fillIfEmpty (fillIfEmpty (fillIfEmpty (df ++ X)
      "Input Resolution" "Input Resolution_meta")
      "Operations" "Operations_meta")
      "Parameters" "Parameters_meta").filter
        (fun c => !pyEndsWith c.1 "_meta")) "Parameters" =
      (getCol? df "Parameters").map (fun cs =>
        List.zipWith (fun b mv => if (cellToStr b).length > 0 then b else mv)
          cs ((getCol? X "Parameters_meta").getD [])) := by
  obtain ⟨h1, h2, h3⟩ := merge_generic_has df X hX hIR hOps hPar
  have hnmem : "Parameters_meta" ∉ labels df := by
    intro hmem
    have := hnm _ hmem
    exact absurd this (by decide)
  rw [getCol?_filter_of_pred _ (fun x => !pyEndsWith x "_meta") "Parameters" (by decide),
    getCol?_fillIfEmpty_self _ "Parameters" "Parameters_meta" h3,
    getCol?_fillIfEmpty_ne _ "Operations" "Operations_meta" "Parameters" h2 (by decide),
    getCol?_fillIfEmpty_ne (df ++ X) "Input Resolution" "Input Resolution_meta"
      "Parameters" h1 (by decide),
    getCol?_append_left df X "Parameters" ((hasCol_iff _ _).mp hPar),
    getCol?_fillIfEmpty_ne _ "Operations" "Operations_meta" "Parameters_meta" h2 (by decide),
    getCol?_fillIfEmpty_ne (df ++ X) "Input Resolution" "Input Resolution_meta"
      "Parameters_meta" h1 (by decide),
    getCol?_append_right df X "Parameters_meta" hnmem]

theorem getCol?_X_length {X : DF} {n : Nat} (l : String)
    (hrX : RectN X n) (hmem : l ∈ labels X) :
    ((getCol? X l).getD []).length = n := by
  have hs := getCol?_some_of_mem X l hmem
  exact getCol?_length_of_RectN hrX hs

theorem RectN_merge_generic (df X : DF) (n : Nat)
    (hX : labels X = ["Input Resolution_meta", "Operations_meta", "Parameters_meta"])
    (hnm : NoMeta df) (hr : RectN df n) (hrX : RectN X n)
    (hIR : hasCol df "Input Resolution" = true)
    (hOps : hasCol df "Operations" = true)
    (hPar : hasCol df "Parameters" = true) :
    RectN ((fillIfEmpty (fillIfEmpty (fillIfEmpty (df ++ X)
      "Input Resolution" "Input Resolution_meta")
      "Operations" "Operations_meta")
      "Parameters" "Parameters_meta").filter
        (fun c => !pyEndsWith c.1 "_meta")) n := by
  obtain ⟨h1, h2, h3⟩ := merge_generic_has df X hX hIR hOps hPar
  have hnm1 : "Input Resolution_meta" ∉ labels df := by
    intro hmem
    exact absurd (hnm _ hmem) (by decide)
  have hnm2 : "Operations_meta" ∉ labels df := by
    intro hmem
    exact absurd (hnm _ hmem) (by decide)
  have hnm3 : "Parameters_meta" ∉ labels df := by
    intro hmem
    exact absurd (hnm _ hmem) (by decide)
  have hm1 : ((getCol? (df ++ X) "Input Resolution_meta").getD []).length = n := by
    rw [getCol?_append_right df X _ hnm1]
    exact getCol?_X_length _ hrX (by rw [hX]; simp)
  have hfill1 : RectN (fillIfEmpty (df ++ X)
      "Input Resolution" "Input Resolution_meta") n :=
    RectN_fillIfEmpty _ _ h1 (RectN_append hr hrX) hm1
  have hm2 : ((getCol? (fillIfEmpty (df ++ X) "Input Resolution" "Input Resolution_meta")
      "Operations_meta").getD []).length = n := by
    rw [getCol?_fillIfEmpty_ne (df ++ X) "Input Resolution" "Input Resolution_meta"
      "Operations_meta" h1 (by decide), getCol?_append_right df X _ hnm2]
    exact getCol?_X_length _ hrX (by rw [hX]; simp)
  have hfill2 : RectN (fillIfEmpty (fillIfEmpty (df ++ X)
      "Input Resolution" "Input Resolution_meta") "Operations" "Operations_meta") n :=
    RectN_fillIfEmpty _ _ h2 hfill1 hm2
  have hm3 : ((getCol? (fillIfEmpty (fillIfEmpty (df ++ X)
      "Input Resolution" "Input Resolution_meta") "Operations" "Operations_meta")
      "Parameters_meta").getD []).length = n := by
    rw [getCol?_fillIfEmpty_ne _ "Operations" "Operations_meta"
      "Parameters_meta" h2 (by decide),
      getCol?_fillIfEmpty_ne (df ++ X) "Input Resolution" "Input Resolution_meta"
      "Parameters_meta" h1 (by decide), getCol?_append_right df X _ hnm3]
    exact getCol?_X_length _ hrX (by rw [hX]; simp)
  exact RectN_filter _ (RectN_fillIfEmpty _ _ h3 hfill2 hm3)

theorem mergeX_labels (df : DF) (m : List MetaRow) :
    labels
      [("Input Resolution_meta",
        (((getCol? df "_match_key_").getD []).map cellToStr).map (fun k =>
          match m.find? (fun r => r.key == k) with
          | some r => r.ir
          | none => .na)),
       ("Operations_meta",
        (((getCol? df "_match_key_").getD []).map cellToStr).map (fun k =>
          match m.find? (fun r => r.key == k) with
          | some r => r.ops
          | none => .na)),
       ("Parameters_meta",
        (((getCol? df "_match_key_").getD []).map cellToStr).map (fun k =>
          match m.find? (fun r => r.key == k) with
          | some r => r.params
          | none => .na))] =
      ["Input Resolution_meta", "Operations_meta", "Parameters_meta"] := by
  simp [labels]

theorem mergeX_rect (df : DF) (m : List MetaRow) (n : Nat)
    (hkey : hasCol df "_match_key_" = true) (hr : RectN df n) :
    RectN
      [("Input Resolution_meta",
        (((getCol? df "_match_key_").getD []).map cellToStr).map (fun k =>
          match m.find? (fun r => r.key == k) with
          | some r => r.ir
          | none => .na)),
       ("Operations_meta",
        (((getCol? df "_match_key_").getD []).map cellToStr).map (fun k =>
          match m.find? (fun r => r.key == k) with
          | some r => r.ops
          | none => .na)),
       ("Parameters_meta",
        (((getCol? df "_match_key_").getD []).map cellToStr).map (fun k =>
          match m.find? (fun r => r.key == k) with
          | some r => r.params
          | none => .na))] n := by
  have hkl : ((getCol? df "_match_key_").getD []).length = n :=
    getCol?_X_length _ hr ((hasCol_iff _ _).mp hkey)
  intro c hm
  simp only [List.mem_cons, List.mem_singleton, List.not_mem_nil, or_false] at hm
  rcases hm with rfl | rfl | rfl <;> simp [hkl]

theorem RectN_mergeStage_some (df : DF) (m : List MetaRow) (n : Nat)
    (hnm : NoMeta df) (hr : RectN df n)
    (hkey : hasCol df "_match_key_" = true)
    (hIR : hasCol df "Input Resolution" = true)
    (hOps : hasCol df "Operations" = true)
    (hPar : hasCol df "Parameters" = true) :
    RectN (mergeStage df (some m)) n := by
  rw [mergeStage_some_eq]
  exact RectN_merge_generic df _ n (mergeX_labels df m) hnm hr
    (mergeX_rect df m n hkey hr) hIR hOps hPar

theorem getCol?_mergeStage_ne (df : DF) (m : List MetaRow) (l : String)
    (hIR : hasCol df "Input Resolution" = true)
    (hOps : hasCol df "Operations" = true)
    (hPar : hasCol df "Parameters" = true)
    (ha : l ≠ "Input Resolution") (hb : l ≠ "Operations") (hc : l ≠ "Parameters")
    (hlm : pyEndsWith l "_meta" = false) :
    getCol? (mergeStage df (some m)) l = getCol? df l := by
  rw [mergeStage_some_eq]
  exact getCol?_merge_generic_ne df _ l (mergeX_labels df m) hIR hOps hPar ha hb hc hlm

theorem final_cols_good : ∀ l ∈ FINAL_COLUMNS,
    pyEndsWith l "_meta" = false ∧ l ≠ "_match_key_" := by decide

theorem link_cols_final : ∀ l ∈ LINK_COLUMNS, l ∈ FINAL_COLUMNS := by decide

theorem link_cols_facts : ∀ l ∈ LINK_COLUMNS,
    l ≠ "Operations" ∧ l ≠ "Parameters" ∧ l ≠ "FPS" ∧ l ≠ "FPS/Watt" ∧
    l ≠ "License" ∧ l ≠ "_match_key_" ∧ l ≠ "Input Resolution" ∧
    pyEndsWith l "_meta" = false := by decide

theorem ensureFinalCols_eq (d : DF) :
    ensureFinalCols d =
      List.foldl
        (fun d col => if hasCol d col then d
          else d ++ [(col, List.replicate (nrows d) (.str ""))]) d FINAL_COLUMNS := rfl

/-- Everything the claims need about the pipeline from the parsing stage
onward, given a duplicate-free rectangular mid-frame. -/
theorem tail_spec (d3 : DF) (n : Nat) (meta : Option (List MetaRow))
    (H1 : (labels d3).Nodup)
    (H2 : RectN d3 n)
    (H3 : nrows d3 = n)
    (HG : ∀ l ∈ labels d3, pyEndsWith l "_meta" = false ∧ l ≠ "_match_key_") :
    labels (selectFinal (mergeStage (licenseStage (matchKeyStage (numericStage
      (linkStage (ensureFinalCols d3))))) meta)) = FINAL_COLUMNS ∧
    RectN (selectFinal (mergeStage (licenseStage (matchKeyStage (numericStage
      (linkStage (ensureFinalCols d3))))) meta)) n ∧
    nrows (selectFinal (mergeStage (licenseStage (matchKeyStage (numericStage
      (linkStage (ensureFinalCols d3))))) meta)) = n ∧
    (∀ l, l ∈ FINAL_COLUMNS → l ∉ LINK_COLUMNS →
      l ∉ (["Operations", "Parameters", "FPS", "FPS/Watt"] : List String) →
      l ≠ "License" → l ≠ "Input Resolution" →
      getCol? (selectFinal (mergeStage (licenseStage (matchKeyStage (numericStage
        (linkStage (ensureFinalCols d3))))) meta)) l =
        getCol? (ensureFinalCols d3) l) ∧
    getCol? (selectFinal (mergeStage (licenseStage (matchKeyStage (numericStage
      (linkStage (ensureFinalCols d3))))) meta)) "License" =
      (getCol? (ensureFinalCols d3) "License").map (fun cs =>
        (cs.map (fun c => if isNaCell c then Cell.str "Not Specified" else c)).map
          (fun c => if pyStrip (cellToStr c) == "" then Cell.str "Not Specified" else c)) ∧
    (meta = none →
      getCol? (selectFinal (mergeStage (licenseStage (matchKeyStage (numericStage
        (linkStage (ensureFinalCols d3))))) meta)) "Input Resolution" =
        getCol? (ensureFinalCols d3) "Input Resolution") ∧
    (meta = none →
      getCol? (selectFinal (mergeStage (licenseStage (matchKeyStage (numericStage
        (linkStage (ensureFinalCols d3))))) meta)) "Operations" =
        ((getCol? (ensureFinalCols d3) "Operations").map
          (List.map to_numeric_cell)).map (List.map (fmtCell 2)) ∧
      getCol? (selectFinal (mergeStage (licenseStage (matchKeyStage (numericStage
        (linkStage (ensureFinalCols d3))))) meta)) "Parameters" =
        ((getCol? (ensureFinalCols d3) "Parameters").map
          (List.map to_numeric_cell)).map (List.map (fmtCell 2))) ∧
    getCol? (selectFinal (mergeStage (licenseStage (matchKeyStage (numericStage
      (linkStage (ensureFinalCols d3))))) meta)) "FPS" =
      ((getCol? (ensureFinalCols d3) "FPS").map
        (List.map to_numeric_cell)).map (List.map (fmtCell 0)) ∧
    getCol? (selectFinal (mergeStage (licenseStage (matchKeyStage (numericStage
      (linkStage (ensureFinalCols d3))))) meta)) "FPS/Watt" =
      ((getCol? (ensureFinalCols d3) "FPS/Watt").map
        (List.map to_numeric_cell)).map (List.map (fmtCell 2)) ∧
    (∀ l ∈ LINK_COLUMNS,
      getCol? (selectFinal (mergeStage (licenseStage (matchKeyStage (numericStage
        (linkStage (ensureFinalCols d3))))) meta)) l =
        (getCol? (ensureFinalCols d3) l).map (fun cs =>
          cs.map (fun c => Cell.str (create_html_link c l)))) := by
  -- ensure stage
  have hFnodup : FINAL_COLUMNS.Nodup := by decide
  have h4lab : labels (ensureFinalCols d3) =
      labels d3 ++ FINAL_COLUMNS.filter (fun c => !hasCol d3 c) := by
    rw [ensureFinalCols_eq]
    exact ensure_fold_labels FINAL_COLUMNS d3 hFnodup
  have h4nodup : (labels (ensureFinalCols d3)).Nodup := by
    rw [h4lab, List.nodup_append]
    refine ⟨H1, hFnodup.filter _, ?_⟩
    intro a ha hamem
    have hnot := (hasCol_eq_false_iff d3 a).mp (by simpa using List.of_mem_filter hamem)
    exact hnot ha
  have h4rect : RectN (ensureFinalCols d3) n := by
    rw [ensureFinalCols_eq]
    exact ensure_fold_rect FINAL_COLUMNS d3 n H2 H3
  have h4nrows : nrows (ensureFinalCols d3) = n := by
    rw [ensureFinalCols_eq, ensure_fold_nrows, H3]
  have h4final : ∀ l ∈ FINAL_COLUMNS, l ∈ labels (ensureFinalCols d3) := by
    intro l hl
    rw [h4lab, List.mem_append]
    by_cases hc : hasCol d3 l = true
    · exact Or.inl ((hasCol_iff d3 l).mp hc)
    · refine Or.inr (List.mem_filter.mpr ⟨hl, ?_⟩)
      have hfalse : hasCol d3 l = false := by
        cases hfc : hasCol d3 l
        · rfl
        · exact absurd hfc hc
      simp [hfalse]
  have h4good : ∀ l ∈ labels (ensureFinalCols d3),
      pyEndsWith l "_meta" = false ∧ l ≠ "_match_key_" := by
    intro l hl
    rw [h4lab, List.mem_append] at hl
    rcases hl with hl | hl
    · exact HG l hl
    · exact final_cols_good l (List.mem_of_mem_filter hl)
  -- link stage
  have h5lab : labels (linkStage (ensureFinalCols d3)) = labels (ensureFinalCols d3) :=
    labels_linkStage _
  have h5rect : RectN (linkStage (ensureFinalCols d3)) n := RectN_linkStage h4rect
  -- numeric stage
  have h6lab : labels (numericStage (linkStage (ensureFinalCols d3))) =
      labels (ensureFinalCols d3) := by
    rw [labels_numericStage, h5lab]
  have h6rect : RectN (numericStage (linkStage (ensureFinalCols d3))) n :=
    RectN_numericStage h5rect
  -- match-key stage
  have h6name : hasCol (numericStage (linkStage (ensureFinalCols d3))) "Name" = true := by
    rw [hasCol_iff, h6lab]
    exact h4final "Name" (by decide)
  have h7eq := matchKeyStage_eq _ h6name
  have hkeynotmem : "_match_key_" ∉ labels (numericStage (linkStage (ensureFinalCols d3))) := by
    rw [h6lab]
    intro hmem
    exact (h4good _ hmem).2 rfl
  have h7lab : labels (matchKeyStage (numericStage (linkStage (ensureFinalCols d3)))) =
      labels (ensureFinalCols d3) ++ ["_match_key_"] := by
    rw [h7eq, labels_setCol, if_neg hkeynotmem, h6lab]
  have h7nodup : (labels (matchKeyStage (numericStage (linkStage
      (ensureFinalCols d3))))).Nodup := by
    rw [h7lab, List.nodup_append]
    refine ⟨h4nodup, by simp, ?_⟩
    intro a ha hamem
    rcases List.mem_singleton.mp hamem with rfl
    exact (h4good _ ha).2 rfl
  have h7rect : RectN (matchKeyStage (numericStage (linkStage (ensureFinalCols d3)))) n := by
    rw [h7eq]
    refine RectN_setCol h6rect ?_
    have hnamemem : "Name" ∈ labels (numericStage (linkStage (ensureFinalCols d3))) :=
      (hasCol_iff _ _).mp h6name
    have := getCol?_some_of_mem _ _ hnamemem
    rw [List.length_map]
    exact getCol?_length_of_RectN h6rect this
  -- license stage
  have h7lic : hasCol (matchKeyStage (numericStage (linkStage (ensureFinalCols d3))))
      "License" = true := by
    rw [hasCol_iff, h7lab, List.mem_append]
    exact Or.inl (h4final "License" (by decide))
  have h8eq := licenseStage_eq _ h7lic
  have h8lab : labels (licenseStage (matchKeyStage (numericStage (linkStage
      (ensureFinalCols d3))))) = labels (ensureFinalCols d3) ++ ["_match_key_"] := by
    rw [h8eq, labels_mapCol, labels_mapCol, h7lab]
  have h8nodup : (labels (licenseStage (matchKeyStage (numericStage (linkStage
      (ensureFinalCols d3)))))).Nodup := by
    rw [h8lab, ← h7lab]
    exact h7nodup
  have h8rect : RectN (licenseStage (matchKeyStage (numericStage (linkStage
      (ensureFinalCols d3))))) n := by
    rw [h8eq]
    exact RectN_mapCol (RectN_mapCol h7rect)
  have h8good : NoMeta (licenseStage (matchKeyStage (numericStage (linkStage
      (ensureFinalCols d3))))) := by
    intro l hl
    rw [h8lab, List.mem_append] at hl
    rcases hl with hl | hl
    · exact (h4good _ hl).1
    · rcases List.mem_singleton.mp hl with rfl
      decide
  have h8has : ∀ l ∈ FINAL_COLUMNS,
      hasCol (licenseStage (matchKeyStage (numericStage (linkStage
        (ensureFinalCols d3))))) l = true := by
    intro l hl
    rw [hasCol_iff, h8lab, List.mem_append]
    exact Or.inl (h4final l hl)
  have h8key : hasCol (licenseStage (matchKeyStage (numericStage (linkStage
      (ensureFinalCols d3))))) "_match_key_" = true := by
    rw [hasCol_iff, h8lab, List.mem_append]
    exact Or.inr (by simp)
  -- merge stage
  have h9lab : labels (mergeStage (licenseStage (matchKeyStage (numericStage (linkStage
      (ensureFinalCols d3))))) meta) = labels (ensureFinalCols d3) ++ ["_match_key_"] := by
    cases meta with
    | none => rw [mergeStage_none, h8lab]
    | some m =>
      rw [labels_mergeStage_some _ m h8good (h8has _ (by decide)) (h8has _ (by decide))
        (h8has _ (by decide)), h8lab]
  have h9nodup : (labels (mergeStage (licenseStage (matchKeyStage (numericStage (linkStage
      (ensureFinalCols d3))))) meta)).Nodup := by
    rw [h9lab, ← h8lab]
    exact h8nodup
  have h9rect : RectN (mergeStage (licenseStage (matchKeyStage (numericStage (linkStage
      (ensureFinalCols d3))))) meta) n := by
    cases meta with
    | none => rw [mergeStage_none]; exact h8rect
    | some m =>
      exact RectN_mergeStage_some _ m n h8good h8rect h8key (h8has _ (by decide))
        (h8has _ (by decide)) (h8has _ (by decide))
  have h9count : ∀ l ∈ FINAL_COLUMNS,
      (labels (mergeStage (licenseStage (matchKeyStage (numericStage (linkStage
        (ensureFinalCols d3))))) meta)).count l = 1 := by
    intro l hl
    refine List.count_eq_one_of_mem h9nodup ?_
    rw [h9lab, List.mem_append]
    exact Or.inl (h4final l hl)
  -- select stage
  have hsel := selectFinal_spec _ h9count
  have hA1 : labels (selectFinal (mergeStage (licenseStage (matchKeyStage (numericStage
      (linkStage (ensureFinalCols d3))))) meta)) = FINAL_COLUMNS :=
    labels_selectFinal _ h9count
  have h9sel : ∀ l ∈ FINAL_COLUMNS,
      getCol? (selectFinal (mergeStage (licenseStage (matchKeyStage (numericStage
        (linkStage (ensureFinalCols d3))))) meta)) l =
        getCol? (mergeStage (licenseStage (matchKeyStage (numericStage
          (linkStage (ensureFinalCols d3))))) meta) l := by
    intro l hl
    rw [hsel, getCol?_map_assoc _ _ l hl]
    have hmem : l ∈ labels (mergeStage (licenseStage (matchKeyStage (numericStage
        (linkStage (ensureFinalCols d3))))) meta) := by
      rw [h9lab, List.mem_append]
      exact Or.inl (h4final l hl)
    exact (getCol?_some_of_mem _ _ hmem).symm
  have hA2 : RectN (selectFinal (mergeStage (licenseStage (matchKeyStage (numericStage
      (linkStage (ensureFinalCols d3))))) meta)) n := by
    intro c hc
    rw [hsel] at hc
    rcases List.mem_map.mp hc with ⟨l, hl, rfl⟩
    have hmem : l ∈ labels (mergeStage (licenseStage (matchKeyStage (numericStage
        (linkStage (ensureFinalCols d3))))) meta) := by
      rw [h9lab, List.mem_append]
      exact Or.inl (h4final l hl)
    exact getCol?_X_length l h9rect hmem
  have hA3 : nrows (selectFinal (mergeStage (licenseStage (matchKeyStage (numericStage
      (linkStage (ensureFinalCols d3))))) meta)) = n := by
    rw [hsel]
    show (((getCol? (mergeStage (licenseStage (matchKeyStage (numericStage
      (linkStage (ensureFinalCols d3))))) meta) "Task").getD [])).length = n
    refine getCol?_X_length "Task" h9rect ?_
    rw [h9lab, List.mem_append]
    exact Or.inl (h4final "Task" (by decide))
  refine ⟨hA1, hA2, hA3, ?_, ?_, ?_, ?_, ?_, ?_, ?_⟩
  -- generic transport for untouched columns
  · intro l hl hlink hnum hlic hir
    have hops : l ≠ "Operations" := by intro he; rw [he] at hnum; simp at hnum
    have hpar : l ≠ "Parameters" := by intro he; rw [he] at hnum; simp at hnum
    have hfps : l ≠ "FPS" := by intro he; rw [he] at hnum; simp at hnum
    have hfpsw : l ≠ "FPS/Watt" := by intro he; rw [he] at hnum; simp at hnum
    have hsrc : l ≠ "Source" := by intro he; rw [he] at hlink; simp [LINK_COLUMNS] at hlink
    have hcomp : l ≠ "Compiled" := by intro he; rw [he] at hlink; simp [LINK_COLUMNS] at hlink
    have honnx : l ≠ "onnx" := by intro he; rw [he] at hlink; simp [LINK_COLUMNS] at hlink
    have hjson : l ≠ "json" := by intro he; rw [he] at hlink; simp [LINK_COLUMNS] at hlink
    have hnometa : pyEndsWith l "_meta" = false := by
      have := h4good l (h4final l hl)
      exact this.1
    have hkey' : l ≠ "_match_key_" := (h4good l (h4final l hl)).2
    rw [h9sel l hl]
    have hmerge : getCol? (mergeStage (licenseStage (matchKeyStage (numericStage
        (linkStage (ensureFinalCols d3))))) meta) l =
        getCol? (licenseStage (matchKeyStage (numericStage
          (linkStage (ensureFinalCols d3))))) l := by
      cases meta with
      | none => rw [mergeStage_none]
      | some m =>
        exact getCol?_mergeStage_ne _ m l (h8has _ (by decide)) (h8has _ (by decide))
          (h8has _ (by decide)) hir hops hpar hnometa
    rw [hmerge, h8eq, getCol?_mapCol_ne _ _ _ _ hlic, getCol?_mapCol_ne _ _ _ _ hlic,
      h7eq, getCol?_setCol_ne _ _ _ _ hkey',
      getCol?_numericStage_ne _ _ hops hpar hfps hfpsw,
      getCol?_linkStage_ne _ _ hsrc hcomp honnx hjson]
  -- License column
  · rw [h9sel "License" (by decide)]
    have hmerge : getCol? (mergeStage (licenseStage (matchKeyStage (numericStage
        (linkStage (ensureFinalCols d3))))) meta) "License" =
        getCol? (licenseStage (matchKeyStage (numericStage
          (linkStage (ensureFinalCols d3))))) "License" := by
      cases meta with
      | none => rw [mergeStage_none]
      | some m =>
        exact getCol?_mergeStage_ne _ m _ (h8has _ (by decide)) (h8has _ (by decide))
          (h8has _ (by decide)) (by decide) (by decide) (by decide) (by decide)
    rw [hmerge, h8eq, getCol?_mapCol_self, getCol?_mapCol_self,
      h7eq, getCol?_setCol_ne _ _ _ _ (by decide),
      getCol?_numericStage_ne _ _ (by decide) (by decide) (by decide) (by decide),
      getCol?_linkStage_ne _ _ (by decide) (by decide) (by decide) (by decide),
      Option.map_map]
    rfl
  -- Input Resolution with no enrichment
  · rintro rfl
    rw [h9sel "Input Resolution" (by decide), mergeStage_none, h8eq,
      getCol?_mapCol_ne _ _ _ _ (by decide), getCol?_mapCol_ne _ _ _ _ (by decide),
      h7eq, getCol?_setCol_ne _ _ _ _ (by decide),
      getCol?_numericStage_ne _ _ (by decide) (by decide) (by decide) (by decide),
      getCol?_linkStage_ne _ _ (by decide) (by decide) (by decide) (by decide)]
  -- Operations / Parameters with no enrichment
  · rintro rfl
    constructor
    · rw [h9sel "Operations" (by decide), mergeStage_none, h8eq,
        getCol?_mapCol_ne _ _ _ _ (by decide), getCol?_mapCol_ne _ _ _ _ (by decide),
        h7eq, getCol?_setCol_ne _ _ _ _ (by decide), numericStage_eq,
        getCol?_mapCol_ne _ _ _ _ (by decide), getCol?_mapCol_ne _ _ _ _ (by decide),
        getCol?_mapCol_ne _ _ _ _ (by decide), getCol?_mapCol_self,
        getCol?_mapCol_ne _ _ _ _ (by decide), getCol?_mapCol_ne _ _ _ _ (by decide),
        getCol?_mapCol_ne _ _ _ _ (by decide), getCol?_mapCol_self,
        getCol?_linkStage_ne _ _ (by decide) (by decide) (by decide) (by decide)]
    · rw [h9sel "Parameters" (by decide), mergeStage_none, h8eq,
        getCol?_mapCol_ne _ _ _ _ (by decide), getCol?_mapCol_ne _ _ _ _ (by decide),
        h7eq, getCol?_setCol_ne _ _ _ _ (by decide), numericStage_eq,
        getCol?_mapCol_ne _ _ _ _ (by decide), getCol?_mapCol_ne _ _ _ _ (by decide),
        getCol?_mapCol_self,
        getCol?_mapCol_ne _ _ _ _ (by decide), getCol?_mapCol_ne _ _ _ _ (by decide),
        getCol?_mapCol_ne _ _ _ _ (by decide), getCol?_mapCol_self,
        getCol?_mapCol_ne _ _ _ _ (by decide),
        getCol?_linkStage_ne _ _ (by decide) (by decide) (by decide) (by decide)]
  -- FPS
  · rw [h9sel "FPS" (by decide)]
    have hmerge : getCol? (mergeStage (licenseStage (matchKeyStage (numericStage
        (linkStage (ensureFinalCols d3))))) meta) "FPS" =
        getCol? (licenseStage (matchKeyStage (numericStage
          (linkStage (ensureFinalCols d3))))) "FPS" := by
      cases meta with
      | none => rw [mergeStage_none]
      | some m =>
        exact getCol?_mergeStage_ne _ m _ (h8has _ (by decide)) (h8has _ (by decide))
          (h8has _ (by decide)) (by decide) (by decide) (by decide) (by decide)
    rw [hmerge, h8eq,
      getCol?_mapCol_ne _ _ _ _ (by decide), getCol?_mapCol_ne _ _ _ _ (by decide),
      h7eq, getCol?_setCol_ne _ _ _ _ (by decide), numericStage_eq,
      getCol?_mapCol_ne _ _ _ _ (by decide), getCol?_mapCol_self,
      getCol?_mapCol_ne _ _ _ _ (by decide), getCol?_mapCol_ne _ _ _ _ (by decide),
      getCol?_mapCol_ne _ _ _ _ (by decide), getCol?_mapCol_self,
      getCol?_mapCol_ne _ _ _ _ (by decide), getCol?_mapCol_ne _ _ _ _ (by decide),
      getCol?_linkStage_ne _ _ (by decide) (by decide) (by decide) (by decide)]
  -- FPS/Watt
  · rw [h9sel "FPS/Watt" (by decide)]
    have hmerge : getCol? (mergeStage (licenseStage (matchKeyStage (numericStage
        (linkStage (ensureFinalCols d3))))) meta) "FPS/Watt" =
        getCol? (licenseStage (matchKeyStage (numericStage
          (linkStage (ensureFinalCols d3))))) "FPS/Watt" := by
      cases meta with
      | none => rw [mergeStage_none]
      | some m =>
        exact getCol?_mergeStage_ne _ m _ (h8has _ (by decide)) (h8has _ (by decide))
          (h8has _ (by decide)) (by decide) (by decide) (by decide) (by decide)
    rw [hmerge, h8eq,
      getCol?_mapCol_ne _ _ _ _ (by decide), getCol?_mapCol_ne _ _ _ _ (by decide),
      h7eq, getCol?_setCol_ne _ _ _ _ (by decide), numericStage_eq,
      getCol?_mapCol_self,
      getCol?_mapCol_ne _ _ _ _ (by decide), getCol?_mapCol_ne _ _ _ _ (by decide),
      getCol?_mapCol_ne _ _ _ _ (by decide),
      getCol?_mapCol_self,
      getCol?_mapCol_ne _ _ _ _ (by decide), getCol?_mapCol_ne _ _ _ _ (by decide),
      getCol?_mapCol_ne _ _ _ _ (by decide),
      getCol?_linkStage_ne _ _ (by decide) (by decide) (by decide) (by decide)]
  -- link columns
  · intro l hl
    have hlf : l ∈ FINAL_COLUMNS := link_cols_final l hl
    rw [h9sel l hlf]
    obtain ⟨e1, e2, e3, e4, e5, e6, e7, e8⟩ := link_cols_facts l hl
    have hmerge : getCol? (mergeStage (licenseStage (matchKeyStage (numericStage
        (linkStage (ensureFinalCols d3))))) meta) l =
        getCol? (licenseStage (matchKeyStage (numericStage
          (linkStage (ensureFinalCols d3))))) l := by
      cases meta with
      | none => rw [mergeStage_none]
      | some m =>
        exact getCol?_mergeStage_ne _ m _ (h8has _ (by decide)) (h8has _ (by decide))
          (h8has _ (by decide)) e7 e1 e2 e8
    rw [hmerge, h8eq, getCol?_mapCol_ne _ _ _ _ e5, getCol?_mapCol_ne _ _ _ _ e5,
      h7eq, getCol?_setCol_ne _ _ _ _ e6,
      getCol?_numericStage_ne _ _ e1 e2 e3 e4, linkStage_eq]
    simp only [List.mem_cons, List.mem_singleton, List.not_mem_nil, or_false,
      LINK_COLUMNS] at hl
    rcases hl with rfl | rfl | rfl | rfl
    · rw [getCol?_mapCol_ne _ _ _ _ (by decide), getCol?_mapCol_ne _ _ _ _ (by decide),
        getCol?_mapCol_ne _ _ _ _ (by decide), getCol?_mapCol_self]
    · rw [getCol?_mapCol_ne _ _ _ _ (by decide), getCol?_mapCol_ne _ _ _ _ (by decide),
        getCol?_mapCol_self, getCol?_mapCol_ne _ _ _ _ (by decide)]
    · rw [getCol?_mapCol_ne _ _ _ _ (by decide), getCol?_mapCol_self,
        getCol?_mapCol_ne _ _ _ _ (by decide), getCol?_mapCol_ne _ _ _ _ (by decide)]
    · rw [getCol?_mapCol_self, getCol?_mapCol_ne _ _ _ _ (by decide),
        getCol?_mapCol_ne _ _ _ _ (by decide), getCol?_mapCol_ne _ _ _ _ (by decide)]

theorem mem_of_getCol?_some {d : DF} {l : String} {cs : List Cell}
    (h : getCol? d l = some cs) : l ∈ labels d := by
  by_contra hn
  rw [getCol?_eq_none d l hn] at h
  exact Option.noConfusion h

theorem ne_nil_of_mem_labels {d : DF} {l : String} (h : l ∈ labels d) : d ≠ [] := by
  intro hn
  rw [hn] at h
  simp [labels] at h

theorem nameFillStage_cases (d : DF) (n : Nat) (hr : RectN d n) (hn : nrows d = n) :
    nameFillStage d = d ∨
    ∃ cells, cells.length = n ∧ nameFillStage d = setCol d "Name" cells := by
  unfold nameFillStage
  by_cases hneed : (if !hasCol d "Name" then true
      else ((getCol? d "Name").getD []).all isNaCell) = true
  · rw [if_pos hneed]
    by_cases hf : hasCol d "filename" = true
    · rw [if_pos hf]
      exact Or.inr ⟨_, getCol?_X_length "filename" hr ((hasCol_iff _ _).mp hf), rfl⟩
    · rw [if_neg hf]
      by_cases hm : hasCol d "Model ID" = true
      · rw [if_pos hm]
        exact Or.inr ⟨_, getCol?_X_length "Model ID" hr ((hasCol_iff _ _).mp hm), rfl⟩
      · rw [if_neg hm]
        exact Or.inr ⟨_, by simp [hn], rfl⟩
  · rw [if_neg hneed]
    exact Or.inl rfl

theorem nameFillStage_absent (d : DF)
    (h1 : hasCol d "Name" = false) (h2 : hasCol d "filename" = false)
    (h3 : hasCol d "Model ID" = false) :
    nameFillStage d = setCol d "Name" (List.replicate (nrows d) (.str "N/A")) := by
  unfold nameFillStage
  simp [h1, h2, h3]

theorem prepare_task_absent (df : DF)
    (hnd : (labels (prepare df)).Nodup)
    (h : hasCol (stripHeaders df) "Task" = false) :
    getCol? (prepare df) "Task" =
      some (List.replicate (nrows df) (.str "Uncategorized Models")) := by
  have hmem : "Task" ∈ labels (taskStep (stripHeaders df)) := task_mem_taskStep _
  have hstep := getCol?_renameCols_of_nodup (taskStep (stripHeaders df)) "Task"
    (by decide) hmem hnd
  show getCol? (renameCols (taskStep (stripHeaders df))) "Task" = _
  rw [hstep]
  rcases taskStep_cases (stripHeaders df) with ⟨hc, _⟩ | ⟨_, he⟩
  · rw [hc] at h
    exact absurd h (by simp)
  · rw [he, getCol?_append_right _ _ _ ((hasCol_eq_false_iff _ _).mp h),
      getCol?_cons]
    rw [if_pos (by simp), nrows_stripHeaders]

/-- Everything the claims need about the pipeline up to (and including) the
metric/accuracy parsing stage, for a well-formed input. -/
theorem head_spec (df : DF) (wf : WellFormedInput df) :
    (labels (_metric_accuracy_parsor (nameFillStage (dedupeStage (prepare df))))).Nodup ∧
    RectN (_metric_accuracy_parsor (nameFillStage (dedupeStage (prepare df)))) (nrows df) ∧
    nrows (_metric_accuracy_parsor (nameFillStage (dedupeStage (prepare df)))) = nrows df ∧
    (∀ l ∈ labels (_metric_accuracy_parsor (nameFillStage (dedupeStage (prepare df)))),
      pyEndsWith l "_meta" = false ∧ l ≠ "_match_key_") ∧
    (¬ nrows df = 0 → ∀ l, l ≠ "Name" → l ≠ "Metric" → l ≠ "Raw Accuracy" →
      l ≠ "NPU Accuracy" →
      getCol? (_metric_accuracy_parsor (nameFillStage (dedupeStage (prepare df)))) l =
        getCol? (prepare df) l) ∧
    (¬ nrows df = 0 → hasCol (prepare df) "Name" = false →
      hasCol (prepare df) "filename" = false → hasCol (prepare df) "Model ID" = false →
      getCol? (_metric_accuracy_parsor (nameFillStage (dedupeStage (prepare df)))) "Name" =
        some (List.replicate (nrows df) (.str "N/A"))) ∧
    (∀ l ∈ labels (_metric_accuracy_parsor (nameFillStage (dedupeStage (prepare df)))),
      l ∈ labels (prepare df) ∨ l = "Name" ∨ l = "Metric" ∨ l = "Raw Accuracy" ∨
        l = "NPU Accuracy") := by
  obtain ⟨HN, HG, HRect⟩ := wf
  have hded : dedupeStage (prepare df) = prepare df := dedupeStage_noop _ HN
  have hRP : RectN (prepare df) (nrows df) := RectN_prepare HRect
  have hnP : nrows (prepare df) = nrows df := nrows_prepare df
  rw [hded]
  have F1 : (labels (nameFillStage (prepare df))).Nodup := by
    rcases nameFillStage_cases (prepare df) (nrows df) hRP hnP with h | ⟨cells, _, h⟩
    · rw [h]; exact HN
    · rw [h]; exact labels_setCol_nodup _ _ _ HN
  have F2 : RectN (nameFillStage (prepare df)) (nrows df) := by
    rcases nameFillStage_cases (prepare df) (nrows df) hRP hnP with h | ⟨cells, hlen, h⟩
    · rw [h]; exact hRP
    · rw [h]; exact RectN_setCol hRP hlen
  have Fmem : "Task" ∈ labels (nameFillStage (prepare df)) := by
    rcases nameFillStage_cases (prepare df) (nrows df) hRP hnP with h | ⟨cells, _, h⟩
    · rw [h]; exact task_mem_prepare df
    · rw [h]; exact mem_labels_setCol_of_mem _ _ _ _ (task_mem_prepare df)
  have Fne : nameFillStage (prepare df) ≠ [] := ne_nil_of_mem_labels Fmem
  have F3 : nrows (nameFillStage (prepare df)) = nrows df := nrows_of_RectN F2 Fne
  have F4 : ∀ l ∈ labels (nameFillStage (prepare df)),
      pyEndsWith l "_meta" = false ∧ l ≠ "_match_key_" := by
    intro l hl
    rcases nameFillStage_cases (prepare df) (nrows df) hRP hnP with h | ⟨cells, _, h⟩
    · rw [h] at hl; exact HG l hl
    · rw [h] at hl
      rcases mem_labels_setCol_elim _ _ _ _ hl with hl | rfl
      · exact HG l hl
      · exact ⟨by decide, by decide⟩
  have F5 : ∀ l, l ≠ "Name" →
      getCol? (nameFillStage (prepare df)) l = getCol? (prepare df) l := by
    intro l hname
    rcases nameFillStage_cases (prepare df) (nrows df) hRP hnP with h | ⟨cells, _, h⟩
    · rw [h]
    · rw [h, getCol?_setCol_ne _ _ _ _ hname]
  refine ⟨parsor_labels_nodup _ F1, RectN_parsor F2 Fne, ?_, ?_, ?_, ?_, ?_⟩
  · by_cases hn0 : nrows df = 0
    · rw [parsor_empty _ (by rw [F3]; exact hn0), hn0]
      rfl
    · have h0 : ¬ nrows (nameFillStage (prepare df)) = 0 := by rw [F3]; exact hn0
      have hmem3 : "Task" ∈ labels (_metric_accuracy_parsor
          (nameFillStage (prepare df))) := by
        have := getCol?_parsor_ne (nameFillStage (prepare df)) "Task" h0
          (by decide) (by decide) (by decide)
        refine @mem_of_getCol?_some (_metric_accuracy_parsor
          (nameFillStage (prepare df))) "Task"
          ((getCol? (nameFillStage (prepare df)) "Task").getD []) ?_
        rw [this]
        exact getCol?_some_of_mem _ _ Fmem
      exact nrows_of_RectN (RectN_parsor F2 Fne) (ne_nil_of_mem_labels hmem3)
  · intro l hl
    rcases parsor_mem_elim _ _ hl with h | h | h | h
    · exact F4 l h
    · rw [h]; exact ⟨by decide, by decide⟩
    · rw [h]; exact ⟨by decide, by decide⟩
    · rw [h]; exact ⟨by decide, by decide⟩
  · intro hn0 l hname hmet hraw hnpu
    have h0 : ¬ nrows (nameFillStage (prepare df)) = 0 := by rw [F3]; exact hn0
    rw [getCol?_parsor_ne _ _ h0 hmet hraw hnpu, F5 l hname]
  · intro hn0 h1 h2 h3
    have h0 : ¬ nrows (nameFillStage (prepare df)) = 0 := by rw [F3]; exact hn0
    rw [getCol?_parsor_ne _ _ h0 (by decide) (by decide) (by decide),
      nameFillStage_absent _ h1 h2 h3, getCol?_setCol_self, hnP]
  · intro l hl
    rcases parsor_mem_elim _ _ hl with h | h | h | h
    · rcases nameFillStage_cases (prepare df) (nrows df) hRP hnP with hc | ⟨cells, _, hc⟩
      · rw [hc] at h
        exact Or.inl h
      · rw [hc] at h
        rcases mem_labels_setCol_elim _ _ _ _ h with h | rfl
        · exact Or.inl h
        · exact Or.inr (Or.inl rfl)
    · exact Or.inr (Or.inr (Or.inl h))
    · exact Or.inr (Or.inr (Or.inr (Or.inl h)))
    · exact Or.inr (Or.inr (Or.inr (Or.inr h)))

theorem normalize_and_process_eq (df : DF) (meta : Option (List MetaRow)) :
    normalize_and_process df meta =
      selectFinal (mergeStage (licenseStage (matchKeyStage (numericStage (linkStage
        (ensureFinalCols (_metric_accuracy_parsor (nameFillStage
          (dedupeStage (prepare df))))))))) meta) := rfl

/-! ### Report-assembler lemmas -/

theorem dedupFirst_go_subset (l seen : List String) :
    ∀ x ∈ dedupFirst.go l seen, x ∈ l := by
  induction l generalizing seen with
  | nil => intro x hx; simp [dedupFirst.go] at hx
  | cons a t ih =>
    intro x hx
    rw [dedupFirst.go] at hx
    by_cases hc : seen.contains a = true
    · rw [if_pos hc] at hx
      exact List.mem_cons_of_mem a (ih seen x hx)
    · rw [if_neg hc] at hx
      rcases List.mem_cons.mp hx with rfl | hx
      · exact List.mem_cons_self x t
      · exact List.mem_cons_of_mem a (ih (a :: seen) x hx)

theorem dedupFirst_subset (l : List String) : ∀ x ∈ dedupFirst l, x ∈ l :=
  dedupFirst_go_subset l []

theorem filterMap_all_some {α β : Type} (l : List α) (f : α → Option β) (g : α → β)
    (h : ∀ x ∈ l, f x = some (g x)) : l.filterMap f = l.map g := by
  induction l with
  | nil => rfl
  | cons a t ih =>
    rw [List.filterMap_cons, h a (List.mem_cons_self a t), List.map_cons,
      ih (fun x hx => h x (List.mem_cons_of_mem a hx))]

theorem length_filter_zip (mask : List Bool) (cs : List Cell)
    (h : mask.length = cs.length) :
    ((mask.zip cs).filter (fun q => q.1)).length =
      (mask.filter (fun b => b)).length := by
  induction mask generalizing cs with
  | nil => rfl
  | cons b bt ih =>
    cases cs with
    | nil => simp at h
    | cons c ct =>
      rw [List.zip_cons_cons]
      cases b with
      | true =>
        rw [List.filter_cons_of_pos (by rfl), List.filter_cons_of_pos (by rfl),
          List.length_cons, List.length_cons, ih ct (by simpa using h)]
      | false =>
        rw [List.filter_cons_of_neg (by simp), List.filter_cons_of_neg (by simp)]
        exact ih ct (by simpa using h)

theorem RectN_filterRows {d : DF} {n : Nat} (mask : List Bool)
    (hr : RectN d n) (hm : mask.length = n) :
    RectN (filterRows d mask) ((mask.filter (fun b => b)).length) := by
  intro c hc
  rcases List.mem_map.mp hc with ⟨c0, hc0, rfl⟩
  simp only [List.length_map]
  exact length_filter_zip mask c0.2 (by rw [hm, hr c0 hc0])

theorem filterRows_ne_nil {d : DF} (mask : List Bool) (h : d ≠ []) :
    filterRows d mask ≠ [] := by
  intro hn
  exact h (List.map_eq_nil_iff.mp hn)

theorem filter_id_map_length {α : Type} (cs : List α) (p : α → Bool) :
    ((cs.map p).filter (fun b => b)).length = (cs.filter p).length := by
  induction cs with
  | nil => rfl
  | cons c t ih =>
    rw [List.map_cons]
    cases hp : p c with
    | true =>
      rw [List.filter_cons_of_pos (by simp [hp]), List.filter_cons_of_pos (by simp [hp]),
        List.length_cons, List.length_cons, ih]
    | false =>
      rw [List.filter_cons_of_neg (by simp [hp]), List.filter_cons_of_neg (by simp [hp])]
      exact ih

theorem sections_nonempty (d : DF) :
    ∀ sec ∈ dataframe_grouped_sections d, ¬ nrows sec.2 = 0 := by
  intro sec hsec
  unfold dataframe_grouped_sections at hsec
  rcases List.mem_filterMap.mp hsec with ⟨t, _, hF⟩
  by_cases hz : (nrows (filterRows d (((getCol? d "Task").getD []).map
      (fun c => cellEqStr c t))) == 0) = true
  · rw [if_pos hz] at hF
    exact Option.noConfusion hF
  · rw [if_neg hz] at hF
    have := (Option.some.injEq _ _).mp hF
    rw [← this]
    intro hzero
    exact hz (by simpa using hzero)

theorem prepare_task_present (df : DF)
    (hnd : (labels (prepare df)).Nodup)
    (h : hasCol (stripHeaders df) "Task" = true) :
    getCol? (prepare df) "Task" =
      (getCol? (stripHeaders df) "Task").map
        (List.map (fun c => Cell.str (taskClean (cellToStr c)))) := by
  have hmem : "Task" ∈ labels (taskStep (stripHeaders df)) := task_mem_taskStep _
  have hstep := getCol?_renameCols_of_nodup (taskStep (stripHeaders df)) "Task"
    (by decide) hmem hnd
  show getCol? (renameCols (taskStep (stripHeaders df))) "Task" = _
  rw [hstep]
  rcases taskStep_cases (stripHeaders df) with ⟨_, he⟩ | ⟨hc, _⟩
  · rw [he, getCol?_mapCol_self]
  · rw [hc] at h
    exact absurd h (by simp)

theorem create_html_link_empty (t : String) : create_html_link (Cell.str "") t = "" := rfl

theorem link_maps_replicate (n : Nat) (t : String) :
    (List.replicate n (Cell.str "")).map (fun c => Cell.str (create_html_link c t)) =
      List.replicate n (Cell.str "") := by
  rw [List.map_replicate]
  congr 1

theorem numeric_maps_replicate (n d : Nat) :
    ((List.replicate n (Cell.str "")).map to_numeric_cell).map (fmtCell d) =
      List.replicate n (Cell.str "") := by
  rw [List.map_replicate, List.map_replicate]
  congr 1

theorem license_maps_replicate (n : Nat) :
    ((List.replicate n (Cell.str "")).map
        (fun c => if isNaCell c then Cell.str "Not Specified" else c)).map
      (fun c => if pyStrip (cellToStr c) == "" then Cell.str "Not Specified" else c) =
      List.replicate n (Cell.str "Not Specified") := by
  rw [List.map_replicate, List.map_replicate]
  congr 1

theorem link_cols_noparse : ∀ l ∈ LINK_COLUMNS,
    l ≠ "Name" ∧ l ≠ "Metric" ∧ l ≠ "Raw Accuracy" ∧ l ≠ "NPU Accuracy" := by decide

/-! ### Claim theorems -/

/-- C1: the parsing stage is claimed to derive NPU Accuracy from the device
accuracy string. For a PSNR/SSIM-classified row the code pastes the pair
extracted from the **raw** string into both outputs, so the device string
"Avg PSNR: 30.1 / Avg SSIM: 0.8" is ignored and NPU Accuracy repeats the raw
extraction — the claimed independence fails. -/
theorem C1_psnr_npu_accuracy_code_bug :
    parseRow "Avg PSNR: 31.709 / Avg SSIM: 0.8905" "Avg PSNR: 30.1 / Avg SSIM: 0.8" =
      ("PSNR/SSIM", "31.709 / 0.8905", "31.709 / 0.8905") := by decide

/-- C4: the link renderer is claimed to emit markup only for values that,
after trimming, begin with "http://" or "https://". The code performs no
scheme check at all: "ftp://x" matches neither scheme yet still yields an
anchor, refuting the claimed contract (the empty string does yield ""). -/
theorem C4_link_renderer_code_bug :
    pyStartsWith "ftp://x" "http://" = false ∧
    pyStartsWith "ftp://x" "https://" = false ∧
    create_html_link (Cell.str "ftp://x") "onnx" ≠ "" ∧
    create_html_link (Cell.str "") "onnx" = "" := by decide

/-- C5: a missing enrichment file is claimed to be tolerated when the caller
did not opt in to enrichment. The CLI always passes the default path
"meta.csv" to the loader, whose existence check raises, so a run with only
the primary CSV present fails with a file-not-found error instead of
proceeding without enrichment. -/
theorem C5_enrichment_missing_code_bug :
    mainRun ["sample.csv"] ⟨none, none, none⟩ =
      .error "Enrichment file not found: meta.csv" := rfl

/-- C8: the key normalizer returns "" on every non-text cell, equals the
strip/collapse/lowercase normalization on text, is idempotent, and maps both
"  Foo   Bar " and "foo bar" to "foo bar", as claimed. -/
theorem C8_key_normalizer_contract :
    _normalize_key Cell.na = "" ∧
    (∀ q : ℚ, _normalize_key (Cell.num q) = "") ∧
    (∀ s : String, _normalize_key (Cell.str s) = normalizeKeyStr s) ∧
    (∀ s : String, normalizeKeyStr (normalizeKeyStr s) = normalizeKeyStr s) ∧
    normalizeKeyStr "  Foo   Bar " = "foo bar" ∧
    normalizeKeyStr "foo bar" = "foo bar" :=
  ⟨rfl, fun _ => rfl, fun _ => rfl, normalizeKeyStr_idem, by decide, by decide⟩

/-- C2 counterexample: "AP SSIM 0.9" begins with "AP " yet classifies as
"PSNR/SSIM" (the SSIM-containment test runs before the AP prefix tests), and
"AP(Easy) 1 AP(Medium) 2" names two sub-labels yet the Metric is refined to
"AP(Easy)" — the first contained sub-label, not "exactly one". -/
theorem C2_counterexample :
    get_metric_type "AP SSIM 0.9" = "PSNR/SSIM" ∧
    (parseRow "AP(Easy) 1 AP(Medium) 2" "").1 = "AP(Easy)" := by decide

/-- C2 (amended): for every trimmed accuracy string with one of the AP
prefixes ("Val AP", "AP(", "AP ", "AP") and no occurrence of "SSIM", the
Metric is the *first* of AP(Easy), AP(Medium), AP(Hard) literally contained
in the string, falling back to the family "AP(Easy/Med/Hard)" when none is
contained; in the family case each extracted value is the joined
Easy/Medium/Hard triple of its own string when available, else that string's
first numeric token. -/
theorem C2_ap_classification_amended (s npu : String) (hstrip : pyStrip s = s)
    (hap : (pyStartsWith s "Val AP" || pyStartsWith s "AP(" || pyStartsWith s "AP " ||
      pyStartsWith s "AP") = true)
    (hss : pyContains s "SSIM" = false) :
    (parseRow s npu).1 =
      (if pyContains s "AP(Easy)" then "AP(Easy)"
       else if pyContains s "AP(Medium)" then "AP(Medium)"
       else if pyContains s "AP(Hard)" then "AP(Hard)"
       else "AP(Easy/Med/Hard)") ∧
    (pyContains s "AP(Easy)" = false → pyContains s "AP(Medium)" = false →
      pyContains s "AP(Hard)" = false →
      (parseRow s npu).2.1 =
        (if extract_ap_triple_joined s != "" then extract_ap_triple_joined s
         else extract_primary_accuracy s) ∧
      (parseRow s npu).2.2 =
        (if extract_ap_triple_joined npu != "" then extract_ap_triple_joined npu
         else extract_primary_accuracy npu)) := by
  refine ⟨parseRow_metric_AP s npu hstrip hap hss, ?_⟩
  intro q1 q2 q3
  have hmaj := get_metric_type_AP s hstrip hap hss
  obtain hd | hd := get_metric_detail_AP s hstrip hap hss q1 q2 q3
  · unfold parseRow
    rw [hd, hmaj]
    exact ⟨rfl, rfl⟩
  · unfold parseRow
    rw [hd, hmaj]
    exact ⟨rfl, rfl⟩

/-- C2 witness: the spec's example contains no literal sub-label, so the
Metric stays the family label and the raw extraction is the joined triple. -/
theorem C2_witness :
    (parseRow "Val AP (Easy 95.44 / Medium 93.95 / Hard 85.664)" "").1 =
      "AP(Easy/Med/Hard)" ∧
    (parseRow "Val AP (Easy 95.44 / Medium 93.95 / Hard 85.664)" "").2.1 =
      "95.44 / 93.95 / 85.664" := by
  obtain ⟨h1, h2⟩ := C2_ap_classification_amended
    "Val AP (Easy 95.44 / Medium 93.95 / Hard 85.664)" "" (by decide) (by decide)
    (by decide)
  obtain ⟨h3, _⟩ := h2 (by decide) (by decide) (by decide)
  constructor
  · rw [h1]; decide
  · rw [h3]; decide

/-- C3 counterexample: for a source with only a Dataset column, the Task
field of the output is "Uncategorized Models", not the empty string the
claim prescribes for absent source fields. -/
theorem C3_counterexample :
    getCol? (normalize_and_process [("Dataset", [Cell.str "D"])] none) "Task" =
      some [Cell.str "Uncategorized Models"] ∧
    getCol? (normalize_and_process [("Dataset", [Cell.str "D"])] none) "Task" ≠
      some [Cell.str ""] := by decide

/-- C6 counterexample: a missing (NaN) primary Input Resolution is *not*
filled from a matching enrichment record — its string form is "nan", which
the emptiness test treats as non-empty — while a truly empty Operations
string is filled. -/
theorem C6_counterexample :
    getCol? (mergeStage
      [("_match_key_", [Cell.str "m"]), ("Input Resolution", [Cell.na]),
       ("Operations", [Cell.str ""]), ("Parameters", [Cell.str "1"])]
      (some [⟨"m", Cell.str "224x224", Cell.str "5", Cell.str "9"⟩]))
      "Input Resolution" = some [Cell.na] ∧
    getCol? (mergeStage
      [("_match_key_", [Cell.str "m"]), ("Input Resolution", [Cell.na]),
       ("Operations", [Cell.str ""]), ("Parameters", [Cell.str "1"])]
      (some [⟨"m", Cell.str "224x224", Cell.str "5", Cell.str "9"⟩]))
      "Operations" = some [Cell.str "5"] := by decide

/-- C3 (amended): for every well-formed input, with or without enrichment,
the output has exactly the sixteen canonical fields in canonical order and
one value per source row. Canonical fields absent from the reconciled source
get the empty string — except Task ("Uncategorized Models"), License
("Not Specified") and Name ("N/A", when no filename or Model ID column is
available either); Metric, Raw Accuracy and NPU Accuracy are recomputed from
the accuracy text rather than defaulted. -/
theorem C3_canonical_schema_amended (df : DF) (meta : Option (List MetaRow))
    (wf : WellFormedInput df) :
    labels (normalize_and_process df meta) = FINAL_COLUMNS ∧
    RectN (normalize_and_process df meta) (nrows df) ∧
    (sourceHasCol df "Dataset" = false →
      getCol? (normalize_and_process df meta) "Dataset" =
        some (List.replicate (nrows df) (Cell.str ""))) ∧
    (∀ l ∈ LINK_COLUMNS, sourceHasCol df l = false →
      getCol? (normalize_and_process df meta) l =
        some (List.replicate (nrows df) (Cell.str ""))) ∧
    (∀ l ∈ (["FPS", "FPS/Watt"] : List String), sourceHasCol df l = false →
      getCol? (normalize_and_process df meta) l =
        some (List.replicate (nrows df) (Cell.str ""))) ∧
    (meta = none →
      ∀ l ∈ (["Input Resolution", "Operations", "Parameters"] : List String),
      sourceHasCol df l = false →
      getCol? (normalize_and_process df meta) l =
        some (List.replicate (nrows df) (Cell.str ""))) ∧
    (hasCol (stripHeaders df) "Task" = false →
      getCol? (normalize_and_process df meta) "Task" =
        some (List.replicate (nrows df) (Cell.str "Uncategorized Models"))) ∧
    (sourceHasCol df "License" = false →
      getCol? (normalize_and_process df meta) "License" =
        some (List.replicate (nrows df) (Cell.str "Not Specified"))) ∧
    (sourceHasCol df "Name" = false → sourceHasCol df "filename" = false →
      sourceHasCol df "Model ID" = false →
      getCol? (normalize_and_process df meta) "Name" =
        some (List.replicate (nrows df) (Cell.str "N/A"))) := by
  obtain ⟨H1, H2, H3, H4, H5, H6, H7⟩ := head_spec df wf
  rw [normalize_and_process_eq]
  obtain ⟨A1, A2, A3, B, C, D, E, G1, G2, H⟩ :=
    tail_spec _ (nrows df) meta H1 H2 H3 H4
  set P := prepare df with hPdef
  set D3 := _metric_accuracy_parsor (nameFillStage (dedupeStage P)) with hD3def
  set OUT := selectFinal (mergeStage (licenseStage (matchKeyStage (numericStage
    (linkStage (ensureFinalCols D3))))) meta) with hOUTdef
  have hzero : ∀ (l : String) (v : Cell), l ∈ FINAL_COLUMNS → nrows df = 0 →
      getCol? OUT l = some (List.replicate (nrows df) v) := by
    intro l v hl hn0
    have hmem : l ∈ labels OUT := by rw [A1]; exact hl
    have hsome := getCol?_some_of_mem OUT l hmem
    have hlen := getCol?_X_length l A2 hmem
    rw [hn0] at hlen
    rw [hsome, hn0, List.length_eq_zero.mp hlen]
    rfl
  have habsent : ¬ nrows df = 0 → ∀ l, l ∈ FINAL_COLUMNS →
      hasCol P l = false → l ≠ "Name" → l ≠ "Metric" → l ≠ "Raw Accuracy" →
      l ≠ "NPU Accuracy" →
      getCol? (ensureFinalCols D3) l =
        some (List.replicate (nrows df) (Cell.str "")) := by
    intro hn0 l hl habs h1 h2 h3 h4
    have hnot : l ∉ labels D3 := by
      intro hmem
      rcases H7 l hmem with h | h | h | h | h
      · exact (hasCol_eq_false_iff P l).mp habs h
      · exact h1 h
      · exact h2 h
      · exact h3 h
      · exact h4 h
    rw [ensureFinalCols_eq, ensure_fold_getCol?_new FINAL_COLUMNS l D3 hl hnot, H3]
  refine ⟨A1, A2, ?_, ?_, ?_, ?_, ?_, ?_, ?_⟩
  · intro habs
    by_cases hn0 : nrows df = 0
    · exact hzero "Dataset" (Cell.str "") (by decide) hn0
    · rw [B "Dataset" (by decide) (by decide) (by decide) (by decide) (by decide)]
      exact habsent hn0 "Dataset" (by decide) habs (by decide) (by decide) (by decide)
        (by decide)
  · intro l hl habs
    by_cases hn0 : nrows df = 0
    · exact hzero l (Cell.str "") (link_cols_final l hl) hn0
    · obtain ⟨e1, e2, e3, e4⟩ := link_cols_noparse l hl
      rw [H l hl, habsent hn0 l (link_cols_final l hl) habs e1 e2 e3 e4,
        Option.map_some']
      rw [link_maps_replicate]
  · intro l hl habs
    have hl2 : l = "FPS" ∨ l = "FPS/Watt" := by simpa using hl
    rcases hl2 with rfl | rfl
    · by_cases hn0 : nrows df = 0
      · exact hzero "FPS" (Cell.str "") (by decide) hn0
      · rw [G1, habsent hn0 "FPS" (by decide) habs (by decide) (by decide) (by decide)
          (by decide), Option.map_some', Option.map_some', numeric_maps_replicate]
    · by_cases hn0 : nrows df = 0
      · exact hzero "FPS/Watt" (Cell.str "") (by decide) hn0
      · rw [G2, habsent hn0 "FPS/Watt" (by decide) habs (by decide) (by decide)
          (by decide) (by decide), Option.map_some', Option.map_some',
          numeric_maps_replicate]
  · rintro rfl l hl habs
    have hl2 : l = "Input Resolution" ∨ l = "Operations" ∨ l = "Parameters" := by
      simpa using hl
    rcases hl2 with rfl | rfl | rfl
    · by_cases hn0 : nrows df = 0
      · exact hzero "Input Resolution" (Cell.str "") (by decide) hn0
      · rw [D rfl]
        exact habsent hn0 "Input Resolution" (by decide) habs (by decide) (by decide)
          (by decide) (by decide)
    · by_cases hn0 : nrows df = 0
      · exact hzero "Operations" (Cell.str "") (by decide) hn0
      · rw [(E rfl).1, habsent hn0 "Operations" (by decide) habs (by decide)
          (by decide) (by decide) (by decide), Option.map_some', Option.map_some',
          numeric_maps_replicate]
    · by_cases hn0 : nrows df = 0
      · exact hzero "Parameters" (Cell.str "") (by decide) hn0
      · rw [(E rfl).2, habsent hn0 "Parameters" (by decide) habs (by decide)
          (by decide) (by decide) (by decide), Option.map_some', Option.map_some',
          numeric_maps_replicate]
  · intro htask
    by_cases hn0 : nrows df = 0
    · exact hzero "Task" (Cell.str "Uncategorized Models") (by decide) hn0
    · have hPT := prepare_task_absent df wf.1 htask
      have hd3T : getCol? D3 "Task" =
          some (List.replicate (nrows df) (Cell.str "Uncategorized Models")) := by
        rw [H5 hn0 "Task" (by decide) (by decide) (by decide) (by decide)]
        exact hPT
      have hmemT : "Task" ∈ labels D3 := mem_of_getCol?_some hd3T
      rw [B "Task" (by decide) (by decide) (by decide) (by decide) (by decide),
        ensureFinalCols_eq, ensure_fold_getCol?_mem FINAL_COLUMNS D3 "Task" hmemT, hd3T]
  · intro habs
    by_cases hn0 : nrows df = 0
    · exact hzero "License" (Cell.str "Not Specified") (by decide) hn0
    · rw [C, habsent hn0 "License" (by decide) habs (by decide) (by decide) (by decide)
        (by decide), Option.map_some', license_maps_replicate]
  · intro h1 h2 h3
    by_cases hn0 : nrows df = 0
    · exact hzero "Name" (Cell.str "N/A") (by decide) hn0
    · have hd3N := H6 hn0 h1 h2 h3
      have hmemN : "Name" ∈ labels D3 := mem_of_getCol?_some hd3N
      rw [B "Name" (by decide) (by decide) (by decide) (by decide) (by decide),
        ensureFinalCols_eq, ensure_fold_getCol?_mem FINAL_COLUMNS D3 "Name" hmemN, hd3N]

/-- C3 witness: the amended schema facts instantiated on a one-column,
one-row source. -/
theorem C3_witness :
    WellFormedInput [("Dataset", [Cell.str "D"])] ∧
    labels (normalize_and_process [("Dataset", [Cell.str "D"])] none) =
      FINAL_COLUMNS :=
  ⟨by decide, (C3_canonical_schema_amended [("Dataset", [Cell.str "D"])] none
    (by decide)).1⟩

/-- C9: the report assembler groups the normalized records by their
stringified Task value: one section per distinct value in first-appearance
order (never alphabetical), no emitted section has zero rows, and grouping
happens after the leading "<digits>. " ordinal prefix is stripped from the
source Task values — so "1. Classification" and "Classification" share a
section. -/
theorem C9_report_grouping (df : DF) (wf : WellFormedInput df)
    (hn0 : ¬ nrows df = 0) :
    (dataframe_grouped_sections (normalize_and_process df none)).map Prod.fst =
      dedupFirst (((getCol? (normalize_and_process df none) "Task").getD []).map
        cellToStr) ∧
    (∀ sec ∈ dataframe_grouped_sections (normalize_and_process df none),
      ¬ nrows sec.2 = 0) ∧
    (hasCol (stripHeaders df) "Task" = true →
      ((getCol? (normalize_and_process df none) "Task").getD []).map cellToStr =
        ((getCol? (stripHeaders df) "Task").getD []).map
          (fun c => taskClean (cellToStr c))) := by
  obtain ⟨H1, H2, H3, H4, H5, _H6, _H7⟩ := head_spec df wf
  rw [normalize_and_process_eq]
  obtain ⟨A1, A2, _A3, B, _C, _D, _E, _G1, _G2, _H⟩ :=
    tail_spec _ (nrows df) none H1 H2 H3 H4
  set P := prepare df with hPdef
  set D3 := _metric_accuracy_parsor (nameFillStage (dedupeStage P)) with hD3def
  set OUT := selectFinal (mergeStage (licenseStage (matchKeyStage (numericStage
    (linkStage (ensureFinalCols D3))))) none) with hOUTdef
  have hmemOut : "Task" ∈ labels OUT := by rw [A1]; decide
  have houtne : OUT ≠ [] := ne_nil_of_mem_labels hmemOut
  have hlen : ((getCol? OUT "Task").getD []).length = nrows df :=
    getCol?_X_length "Task" A2 hmemOut
  have hPsome : getCol? P "Task" = some ((getCol? P "Task").getD []) :=
    getCol?_some_of_mem _ _ (task_mem_prepare df)
  have hd3T : getCol? D3 "Task" = getCol? P "Task" :=
    H5 hn0 "Task" (by decide) (by decide) (by decide) (by decide)
  have hmemD3 : "Task" ∈ labels D3 := mem_of_getCol?_some (by rw [hd3T]; exact hPsome)
  have htc : getCol? OUT "Task" = getCol? P "Task" := by
    rw [B "Task" (by decide) (by decide) (by decide) (by decide) (by decide),
      ensureFinalCols_eq, ensure_fold_getCol?_mem FINAL_COLUMNS D3 "Task" hmemD3, hd3T]
  have hallstr : ∀ c ∈ (getCol? OUT "Task").getD [], ∃ s, c = Cell.str s := by
    intro c hc
    rw [htc] at hc
    by_cases htask : hasCol (stripHeaders df) "Task" = true
    · have hsrc := getCol?_some_of_mem (stripHeaders df) "Task"
        ((hasCol_iff _ _).mp htask)
      rw [prepare_task_present df wf.1 htask, hsrc] at hc
      simp only [Option.map_some', Option.getD_some] at hc
      rcases List.mem_map.mp hc with ⟨e, _, rfl⟩
      exact ⟨_, rfl⟩
    · have habs : hasCol (stripHeaders df) "Task" = false := by
        cases hh : hasCol (stripHeaders df) "Task"
        · rfl
        · exact absurd hh htask
      rw [prepare_task_absent df wf.1 habs] at hc
      simp only [Option.getD_some] at hc
      rcases List.eq_of_mem_replicate hc with rfl
      exact ⟨_, rfl⟩
  have hempty : ((((getCol? OUT "Task").getD []).map cellToStr).isEmpty) = false := by
    rcases hemp : (((getCol? OUT "Task").getD []).map cellToStr) with _ | ⟨a, t⟩
    · exfalso
      apply hn0
      rw [← hlen, List.map_eq_nil_iff.mp hemp]
      rfl
    · rfl
  have hnz : ∀ t ∈ dedupFirst (((getCol? OUT "Task").getD []).map cellToStr),
      ¬ nrows (filterRows OUT (((getCol? OUT "Task").getD []).map
        (fun c => cellEqStr c t))) = 0 := by
    intro t ht
    have htmem : t ∈ ((getCol? OUT "Task").getD []).map cellToStr :=
      dedupFirst_subset _ t ht
    rcases List.mem_map.mp htmem with ⟨c, hc, rfl⟩
    rcases hallstr c hc with ⟨s, rfl⟩
    have hrect := RectN_filterRows (((getCol? OUT "Task").getD []).map
      (fun c => cellEqStr c (cellToStr (Cell.str s)))) A2
      (by rw [List.length_map]; exact hlen)
    have hne2 := filterRows_ne_nil (((getCol? OUT "Task").getD []).map
      (fun c => cellEqStr c (cellToStr (Cell.str s)))) houtne
    rw [nrows_of_RectN hrect hne2, filter_id_map_length]
    intro hlen0
    have hmem2 : Cell.str s ∈ ((getCol? OUT "Task").getD []).filter
        (fun c => cellEqStr c (cellToStr (Cell.str s))) :=
      List.mem_filter.mpr ⟨hc, by simp [cellEqStr, cellToStr]⟩
    rw [List.length_eq_zero.mp hlen0] at hmem2
    simp at hmem2
  have hsec0 : dataframe_grouped_sections OUT =
      (if ((((getCol? OUT "Task").getD []).map cellToStr).isEmpty) = true
       then ["Uncategorized Models"]
       else dedupFirst (((getCol? OUT "Task").getD []).map cellToStr)).filterMap
        (fun task => if (nrows (filterRows OUT (((getCol? OUT "Task").getD []).map
          (fun c => cellEqStr c task))) == 0) = true then none
          else some (task, filterRows OUT (((getCol? OUT "Task").getD []).map
            (fun c => cellEqStr c task)))) := rfl
  refine ⟨?_, sections_nonempty OUT, ?_⟩
  · rw [hsec0, hempty, if_neg (by simp)]
    rw [filterMap_all_some _ _ (fun task => (task, filterRows OUT
      (((getCol? OUT "Task").getD []).map (fun c => cellEqStr c task))))
      (fun t ht => by
        rw [if_neg (fun hb => hnz t ht (by simpa using hb))])]
    rw [List.map_map]
    have hid : (Prod.fst ∘ (fun task => (task, filterRows OUT
        (((getCol? OUT "Task").getD []).map (fun c => cellEqStr c task))))) =
        (id : String → String) := rfl
    rw [hid, List.map_id]
  · intro htask
    have hsrc := getCol?_some_of_mem (stripHeaders df) "Task"
      ((hasCol_iff _ _).mp htask)
    have hcells : (getCol? OUT "Task").getD [] =
        ((getCol? (stripHeaders df) "Task").getD []).map
          (fun c => Cell.str (taskClean (cellToStr c))) := by
      rw [htc, prepare_task_present df wf.1 htask, hsrc]
      rfl
    rw [hcells, List.map_map]
    rfl

/-- C9 witness: sections for a source whose Task values are "Zebra",
"1. Classification" and "Classification": the ordinal prefix is stripped, so
there are exactly two sections, in first-appearance order. -/
theorem C9_witness :
    WellFormedInput [("Task", [Cell.str "Zebra", Cell.str "1. Classification",
      Cell.str "Classification"]),
      ("Name", [Cell.str "a", Cell.str "b", Cell.str "c"])] ∧
    (dataframe_grouped_sections (normalize_and_process
      [("Task", [Cell.str "Zebra", Cell.str "1. Classification",
        Cell.str "Classification"]),
       ("Name", [Cell.str "a", Cell.str "b", Cell.str "c"])] none)).map Prod.fst =
      ["Zebra", "Classification"] := by
  refine ⟨by decide, ?_⟩
  rw [(C9_report_grouping [("Task", [Cell.str "Zebra", Cell.str "1. Classification",
    Cell.str "Classification"]),
    ("Name", [Cell.str "a", Cell.str "b", Cell.str "c"])] (by decide) (by decide)).1]
  decide

theorem lf1_not_na (e : Cell) :
    isNaCell ((fun c => if isNaCell c then Cell.str "Not Specified" else c) e) = false := by
  cases e <;> rfl

theorem lf2_good (x : Cell) (hx : isNaCell x = false) :
    isNaCell (if pyStrip (cellToStr x) == "" then Cell.str "Not Specified" else x) = false ∧
    pyStrip (cellToStr (if pyStrip (cellToStr x) == "" then Cell.str "Not Specified"
      else x)) ≠ "" ∧
    (if pyStrip (cellToStr x) == "" then Cell.str "Not Specified" else x) ≠
      Cell.str "" := by
  by_cases h : (pyStrip (cellToStr x) == "") = true
  · rw [if_pos h]
    exact ⟨by decide, by decide, by decide⟩
  · rw [if_neg h]
    refine ⟨hx, ?_, ?_⟩
    · intro he
      exact h (by rw [he]; rfl)
    · intro he
      exact h (by rw [he]; decide)

/-- C10: in every well-formed run the output License column exists and none
of its cells is missing, whitespace-only, or the empty string; when the
source has no License column at all, every row gets the literal
"Not Specified". -/
theorem C10_license_not_specified (df : DF) (meta : Option (List MetaRow))
    (wf : WellFormedInput df) :
    ∃ cs, getCol? (normalize_and_process df meta) "License" = some cs ∧
      (∀ c ∈ cs, isNaCell c = false ∧ pyStrip (cellToStr c) ≠ "" ∧ c ≠ Cell.str "") ∧
      (sourceHasCol df "License" = false →
        cs = List.replicate (nrows df) (Cell.str "Not Specified")) := by
  obtain ⟨H1, H2, H3, H4, _H5, _H6, H7⟩ := head_spec df wf
  rw [normalize_and_process_eq]
  obtain ⟨A1, A2, _A3, _B, C, _D, _E, _G1, _G2, _H⟩ :=
    tail_spec _ (nrows df) meta H1 H2 H3 H4
  set D3 := _metric_accuracy_parsor (nameFillStage (dedupeStage (prepare df))) with hD3def
  set OUT := selectFinal (mergeStage (licenseStage (matchKeyStage (numericStage
    (linkStage (ensureFinalCols D3))))) meta) with hOUTdef
  have hmem : "License" ∈ labels OUT := by rw [A1]; decide
  have hsome := getCol?_some_of_mem OUT "License" hmem
  refine ⟨(getCol? OUT "License").getD [], hsome, ?_, ?_⟩
  · rcases hens : getCol? (ensureFinalCols D3) "License" with _ | es
    · rw [hens] at C
      rw [C] at hsome
      simp at hsome
    · have hcs : (getCol? OUT "License").getD [] =
          (es.map (fun c => if isNaCell c then Cell.str "Not Specified" else c)).map
            (fun c => if pyStrip (cellToStr c) == "" then Cell.str "Not Specified"
              else c) := by
        rw [C, hens]
        rfl
      rw [hcs]
      intro c hc
      rcases List.mem_map.mp hc with ⟨b, hb, rfl⟩
      rcases List.mem_map.mp hb with ⟨e, _, rfl⟩
      exact lf2_good _ (lf1_not_na e)
  · intro habs
    by_cases hn0 : nrows df = 0
    · have hlen := getCol?_X_length "License" A2 hmem
      rw [hn0] at hlen
      rw [List.length_eq_zero.mp hlen, hn0]
      rfl
    · have hnot : "License" ∉ labels D3 := by
        intro hmem2
        rcases H7 _ hmem2 with h | h | h | h | h
        · exact (hasCol_eq_false_iff _ _).mp habs h
        · exact absurd h (by decide)
        · exact absurd h (by decide)
        · exact absurd h (by decide)
        · exact absurd h (by decide)
      have hens2 : getCol? (ensureFinalCols D3) "License" =
          some (List.replicate (nrows df) (Cell.str "")) := by
        rw [ensureFinalCols_eq,
          ensure_fold_getCol?_new FINAL_COLUMNS "License" D3 (by decide) hnot, H3]
      have hrep : getCol? OUT "License" =
          some (List.replicate (nrows df) (Cell.str "Not Specified")) := by
        rw [C, hens2, Option.map_some', license_maps_replicate]
      exact Option.some.inj (hsome.symm.trans hrep)

/-- C10 witness: a whitespace-only source license value still yields a
non-missing, non-blank output License cell. -/
theorem C10_witness :
    WellFormedInput [("License", [Cell.str "   "])] ∧
    (∃ cs, getCol? (normalize_and_process [("License", [Cell.str "   "])] none)
        "License" = some cs ∧
      ∀ c ∈ cs, isNaCell c = false ∧ pyStrip (cellToStr c) ≠ "" ∧ c ≠ Cell.str "") :=
  ⟨by decide, by
    obtain ⟨cs, h1, h2, _⟩ := C10_license_not_specified [("License", [Cell.str "   "])]
      none (by decide)
    exact ⟨cs, h1, h2⟩⟩

/-- C6 (amended): the enrichment merge keeps every primary row and its
schema, leaves every non-fill column unchanged, and for each of Input
Resolution, Operations and Parameters replaces a primary cell by the
looked-up enrichment cell exactly when the primary cell's *string form* is
empty — so a truly empty string is filled, but a missing (NaN) primary cell
stringifies to "nan" and is kept, and a non-empty primary value is never
overwritten. -/
theorem C6_merge_fill_amended (df : DF) (m : List MetaRow) (n : Nat)
    (hnm : NoMeta df) (hr : RectN df n)
    (hkey : hasCol df "_match_key_" = true)
    (hIR : hasCol df "Input Resolution" = true)
    (hOps : hasCol df "Operations" = true)
    (hPar : hasCol df "Parameters" = true) :
    RectN (mergeStage df (some m)) n ∧
    labels (mergeStage df (some m)) = labels df ∧
    (∀ l, pyEndsWith l "_meta" = false → l ≠ "Input Resolution" →
      l ≠ "Operations" → l ≠ "Parameters" →
      getCol? (mergeStage df (some m)) l = getCol? df l) ∧
    getCol? (mergeStage df (some m)) "Input Resolution" =
      (getCol? df "Input Resolution").map (fun cs =>
        List.zipWith (fun b mv => if (cellToStr b).length > 0 then b else mv) cs
          ((((getCol? df "_match_key_").getD []).map cellToStr).map (fun k =>
            match m.find? (fun r => r.key == k) with
            | some r => r.ir
            | none => Cell.na))) ∧
    getCol? (mergeStage df (some m)) "Operations" =
      (getCol? df "Operations").map (fun cs =>
        List.zipWith (fun b mv => if (cellToStr b).length > 0 then b else mv) cs
          ((((getCol? df "_match_key_").getD []).map cellToStr).map (fun k =>
            match m.find? (fun r => r.key == k) with
            | some r => r.ops
            | none => Cell.na))) ∧
    getCol? (mergeStage df (some m)) "Parameters" =
      (getCol? df "Parameters").map (fun cs =>
        List.zipWith (fun b mv => if (cellToStr b).length > 0 then b else mv) cs
          ((((getCol? df "_match_key_").getD []).map cellToStr).map (fun k =>
            match m.find? (fun r => r.key == k) with
            | some r => r.params
            | none => Cell.na))) := by
  refine ⟨RectN_mergeStage_some df m n hnm hr hkey hIR hOps hPar,
    labels_mergeStage_some df m hnm hIR hOps hPar, ?_, ?_, ?_, ?_⟩
  · intro l hlm h1 h2 h3
    exact getCol?_mergeStage_ne df m l hIR hOps hPar h1 h2 h3 hlm
  · rw [mergeStage_some_eq]
    exact getCol?_merge_generic_IR df _ rfl hnm hIR hOps hPar
  · rw [mergeStage_some_eq]
    exact getCol?_merge_generic_Ops df _ rfl hnm hIR hOps hPar
  · rw [mergeStage_some_eq]
    exact getCol?_merge_generic_Par df _ rfl hnm hIR hOps hPar

/-- C6 witness: the merge facts instantiated on a one-row frame with a
matching enrichment record. -/
theorem C6_witness :
    RectN [("_match_key_", [Cell.str "m"]), ("Input Resolution", [Cell.na]),
      ("Operations", [Cell.str ""]), ("Parameters", [Cell.str "1"])] 1 ∧
    RectN (mergeStage
      [("_match_key_", [Cell.str "m"]), ("Input Resolution", [Cell.na]),
       ("Operations", [Cell.str ""]), ("Parameters", [Cell.str "1"])]
      (some [⟨"m", Cell.str "224x224", Cell.str "5", Cell.str "9"⟩])) 1 :=
  ⟨by decide, (C6_merge_fill_amended _ _ 1 (by decide) (by decide) (by decide)
    (by decide) (by decide) (by decide)).1⟩

theorem dedupe_hit (df : DF) (col : String)
    (hdup : 1 < (df.filter (fun c => c.1 == col)).length) :
    dedupe_and_bfill_column df col =
      df.filter (fun c => c.1 != col) ++
        [(col, (List.range (((df.filter (fun c => c.1 == col)).head?.map
          (fun c => c.2.length)).getD 0)).map (fun i =>
            firstNonNa ((df.filter (fun c => c.1 == col)).map
              (fun c => c.2.getD i .na))))] := by
  unfold dedupe_and_bfill_column
  rw [if_pos hdup]

theorem count_filter_ne (xs : List String) (l col : String) (hl : l ≠ col) :
    (xs.filter (fun x => x != col)).count l = xs.count l := by
  induction xs with
  | nil => rfl
  | cons a t ih =>
    by_cases hac : a = col
    · rw [List.filter_cons_of_neg (by simp [hac]), ih,
        List.count_cons_of_ne (by rw [hac]; exact hl) t]
    · rw [List.filter_cons_of_pos (by simp [hac])]
      by_cases hal : a = l
      · rw [hal, List.count_cons_self, List.count_cons_self, ih]
      · rw [List.count_cons_of_ne (fun he => hal he.symm),
          List.count_cons_of_ne (fun he => hal he.symm), ih]

theorem dedupe_bound {df : DF} {col : String} {n : Nat} (hr : RectN df n)
    (hne : df.filter (fun c => c.1 == col) ≠ []) :
    (((df.filter (fun c => c.1 == col)).head?.map (fun c => c.2.length)).getD 0) = n := by
  obtain ⟨c0, t0, hct⟩ := List.exists_cons_of_ne_nil hne
  have hc0 : c0 ∈ df.filter (fun c => c.1 == col) := by
    rw [hct]
    exact List.mem_cons_self c0 t0
  rw [hct]
  simp only [List.head?_cons, Option.map_some', Option.getD_some]
  exact hr c0 (List.mem_of_mem_filter hc0)

/-- C7 (amended): the duplicate-column collapse merges all same-named
columns into a single column (placed after the others) whose row values are
the first non-missing cell scanning the duplicates left to right, and leaves
every other label's columns and multiplicity untouched; the pipeline applies
this collapse only to the "Name" and "License" labels, before any derived
fields are computed. -/
theorem C7_dedupe_bfill_amended (df : DF) (col : String) (n : Nat) (hr : RectN df n)
    (hdup : 1 < (df.filter (fun c => c.1 == col)).length) :
    getCol? (dedupe_and_bfill_column df col) col =
      some ((List.range n).map (fun i =>
        firstNonNa ((df.filter (fun c => c.1 == col)).map (fun c => c.2.getD i .na)))) ∧
    (labels (dedupe_and_bfill_column df col)).count col = 1 ∧
    (∀ l, l ≠ col →
      getCol? (dedupe_and_bfill_column df col) l = getCol? df l ∧
      (labels (dedupe_and_bfill_column df col)).count l = (labels df).count l) ∧
    dedupeStage df =
      dedupe_and_bfill_column (dedupe_and_bfill_column df "Name") "License" := by
  have hne : df.filter (fun c => c.1 == col) ≠ [] := by
    intro h
    rw [h] at hdup
    simp at hdup
  have hbd := dedupe_bound hr hne
  have heq := dedupe_hit df col hdup
  have hnotmem : col ∉ labels (df.filter (fun c => c.1 != col)) := by
    intro hmem
    rw [labels_filter_pred df (fun l => l != col)] at hmem
    have := List.of_mem_filter hmem
    simp at this
  refine ⟨?_, ?_, ?_, rfl⟩
  · rw [heq, getCol?_append_right _ _ _ hnotmem, getCol?_cons, if_pos (by simp), hbd]
  · rw [heq, labels_append, List.count_append, List.count_eq_zero.mpr hnotmem]
    simp [labels]
  · intro l hl
    have hpl : (fun x => x != col) l = true := by simp [hl]
    have hfi := getCol?_filter_of_pred df (fun x => x != col) l hpl
    constructor
    · rw [heq]
      by_cases hmem : l ∈ labels (df.filter (fun c => c.1 != col))
      · rw [getCol?_append_left _ _ _ hmem, hfi]
      · have hnotdf : l ∉ labels df := by
          intro hmem2
          refine hmem ?_
          rw [labels_filter_pred df (fun x => x != col)]
          exact List.mem_filter.mpr ⟨hmem2, hpl⟩
        rw [getCol?_append_right _ _ _ hmem, getCol?_cons,
          if_neg (by simp only [beq_iff_eq]; exact fun h => hl h.symm),
          getCol?_eq_none df l hnotdf]
        rfl
    · rw [heq, labels_append, List.count_append,
        labels_filter_pred df (fun x => x != col),
        count_filter_ne (labels df) l col hl]
      have hz : (labels [(col, (List.range (((df.filter (fun c => c.1 == col)).head?.map
          (fun c => c.2.length)).getD 0)).map (fun i =>
            firstNonNa ((df.filter (fun c => c.1 == col)).map
              (fun c => c.2.getD i .na))))]).count l = 0 := by
        refine List.count_eq_zero.mpr ?_
        intro hmem
        rcases List.mem_singleton.mp hmem with rfl
        exact hl rfl
      rw [hz, Nat.add_zero]

/-- C7 witness: two duplicate License columns collapse to a single column
taking "MIT" in the row whose first value is missing and "Apache-2.0" in the
row where both are present. -/
theorem C7_witness :
    1 < ([("License", [Cell.na, Cell.str "Apache-2.0"]),
      ("License", [Cell.str "MIT", Cell.str "MIT"])].filter
        (fun c => c.1 == "License")).length ∧
    getCol? (dedupe_and_bfill_column [("License", [Cell.na, Cell.str "Apache-2.0"]),
      ("License", [Cell.str "MIT", Cell.str "MIT"])] "License") "License" =
      some [Cell.str "MIT", Cell.str "Apache-2.0"] := by
  refine ⟨by decide, ?_⟩
  rw [(C7_dedupe_bfill_amended _ "License" 2 (by decide) (by decide)).1]
  decide

/-- C7 counterexample: renaming maps both "Reference" and "reference" to
"Source", producing duplicate columns, and the duplicate-collapse step
leaves both in place — it only ever collapses the Name and License labels,
not every duplicate produced by renaming. -/
theorem C7_counterexample :
    (labels (prepare [("Reference", [Cell.str "a"]),
      ("reference", [Cell.str "b"])])).count "Source" = 2 ∧
    (labels (dedupeStage (prepare [("Reference", [Cell.str "a"]),
      ("reference", [Cell.str "b"])]))).count "Source" = 2 := by decide

end Csv2Html
